import Mathlib

/-!
Verification of `src/scrape_geforce_now.py` against its design specification.

The script is embedded shallowly: JSON values are the inductive `Json`,
Python dictionary/`or`/truthiness/iteration semantics are explicit
functions, and every place where the Python code can raise is modelled by
`Except String`.  Network traffic is modelled by an environment
`Env : Nat → Except String Json` giving the parsed outcome of the n-th
HTTP POST of a run (an `.error` is a transport-level failure such as a
non-2xx status or a JSON parse error).
-/

set_option maxHeartbeats 1000000
set_option maxRecDepth 8000

/-- A JSON value, as produced by `resp.json()` in the script.  Numbers are
modelled as integers (the script never manipulates numeric fields
arithmetically). `Json.null` also models Python `None`, which is what
`dict.get` returns for an absent key. -/
inductive Json where
  | null : Json
  | bool : Bool → Json
  | num : Int → Json
  | str : String → Json
  | arr : List Json → Json
  | obj : List (String × Json) → Json

namespace Json

/-- Python truthiness (`if val:`) of a JSON value. -/
def truthy : Json → Bool
  | .null => false
  | .bool b => b
  | .num n => n != 0
  | .str s => s != ""
  | .arr l => !l.isEmpty
  | .obj l => !l.isEmpty

end Json

open Json

mutual

/-- Python `==` on JSON values (structural equality; the script only ever
compares scalars). -/
def jeq : Json → Json → Bool
  | .null, .null => true
  | .bool a, .bool b => a == b
  | .num a, .num b => a == b
  | .str a, .str b => a == b
  | .arr a, .arr b => jeqList a b
  | .obj a, .obj b => jeqObj a b
  | _, _ => false

def jeqList : List Json → List Json → Bool
  | [], [] => true
  | x :: xs, y :: ys => jeq x y && jeqList xs ys
  | _, _ => false

def jeqObj : List (String × Json) → List (String × Json) → Bool
  | [], [] => true
  | (k1, v1) :: xs, (k2, v2) :: ys => k1 == k2 && jeq v1 v2 && jeqObj xs ys
  | _, _ => false

end

/-- Lookup in an association list (first match), the model of reading a
key of a Python dict. -/
def alist_get (l : List (String × Json)) (k : String) : Option Json :=
  match l with
  | [] => none
  | (k1, v) :: rest => if k1 = k then some v else alist_get rest k

/-- Setting a key of a Python dict: overwrite in place if present,
append otherwise (Python dicts preserve insertion order). -/
def alist_set (l : List (String × Json)) (k : String) (v : Json) : List (String × Json) :=
  match l with
  | [] => [(k, v)]
  | (k1, v1) :: rest =>
      if k1 = k then (k, v) :: rest else (k1, v1) :: alist_set rest k v

/-- `d.get(k)`: `None` for an absent key; raises `AttributeError` when the
receiver is not a dict. -/
def py_get (j : Json) (k : String) : Except String Json :=
  match j with
  | .obj kvs => .ok ((alist_get kvs k).getD .null)
  | _ => .error "AttributeError: get on non-dict"

/-- `d.get(k, default)`: like `py_get` but with an explicit default. -/
def py_getD (j : Json) (k : String) (dflt : Json) : Except String Json :=
  match j with
  | .obj kvs => .ok ((alist_get kvs k).getD dflt)
  | _ => .error "AttributeError: get on non-dict"

/-- `d[k]`: raises `KeyError` for an absent key and `TypeError` for a
non-dict receiver. -/
def py_index (j : Json) (k : String) : Except String Json :=
  match j with
  | .obj kvs =>
      match alist_get kvs k with
      | some v => .ok v
      | none => .error "KeyError"
  | _ => .error "TypeError: not subscriptable"

/-- Python `a or b` on JSON values. -/
def py_or (a b : Json) : Json :=
  if truthy a then a else b

/-- Python `a or b` where both operands are a string or `None` (the
accumulators of `format_content_rating`): an empty or absent left operand
yields the right operand. -/
def py_or_str (a b : Option String) : Option String :=
  match a with
  | some s => if s = "" then b else some s
  | none => b

/-- Python iteration (`for x in j`): lists yield their elements, dicts
their keys, strings their characters; other values raise `TypeError`. -/
def py_iter (j : Json) : Except String (List Json) :=
  match j with
  | .arr l => .ok l
  | .obj kvs => .ok (kvs.map (fun p => Json.str p.1))
  | .str s => .ok (s.data.map (fun c => Json.str (String.mk [c])))
  | _ => .error "TypeError: not iterable"

/-- Python `len(j)`: defined for sized values only. -/
def py_len (j : Json) : Except String Nat :=
  match j with
  | .arr l => .ok l.length
  | .obj kvs => .ok kvs.length
  | .str s => .ok s.length
  | _ => .error "TypeError: has no len"

/-- Python `s.upper()` (ASCII, which is all the script compares against):
defined on strings, `AttributeError` otherwise. -/
def py_upper (j : Json) : Except String String :=
  match j with
  | .str s => .ok (String.mk (s.data.map Char.toUpper))
  | _ => .error "AttributeError: upper on non-string"

/-- String interpolation of a JSON scalar, as Python `str()` inside an
f-string.  Containers are not modelled (the script never interpolates a
well-shaped record's containers; an `.error` here stands for behaviour
outside the model, not a Python exception). -/
def py_interp (j : Json) : Except String String :=
  match j with
  | .str s => .ok s
  | .num n => .ok (toString n)
  | .bool true => .ok "True"
  | .bool false => .ok "False"
  | .null => .ok "None"
  | _ => .error "container interpolation not modelled"

/-- Python `s.strip()` (whitespace only, which is all the script needs). -/
def py_strip (s : String) : String :=
  String.mk (((s.data.dropWhile Char.isWhitespace).reverse.dropWhile Char.isWhitespace).reverse)

/-- Python `x in j`: key membership for dicts, element membership for
lists, substring for strings, `TypeError` otherwise. -/
def py_in (x : Json) (j : Json) : Except String Bool :=
  match j with
  | .obj kvs =>
      match x with
      | .str s => .ok (alist_get kvs s).isSome
      | _ => .ok false
  | .arr l => .ok (l.any (fun y => jeq y x))
  | .str s =>
      match x with
      | .str sub => .ok (decide ((s.splitOn sub).length > 1))
      | _ => .error "TypeError: in <string> requires string"
  | _ => .error "TypeError: argument not a container"

/-- Truthiness of a Python value that is a string or `None`. -/
def truthy_str_opt : Option String → Bool
  | none => false
  | some s => s != ""

/-! ## Normalizer (`pick_image`, `format_content_rating`, `build_play_url`,
`item_to_videogame`) -/

/-- The fixed priority order of image roles scanned by `pick_image`. -/
def IMAGE_PRIORITY_KEYS : List String :=
  ["GAME_BOX_ART", "KEY_ART", "KEY_IMAGE", "HERO_IMAGE",
   "FEATURE_IMAGE", "MARQUEE_HERO_IMAGE", "TV_BANNER"]

/-- The flat synonym fields scanned by `pick_image` when no priority role
matches. -/
def FLAT_IMAGE_KEYS : List String := ["image", "imageUrl", "boxArt"]

/-- One scanning loop of `pick_image`: the first key of `keys` whose value
in the dict `kvs` is truthy. -/
def scan_keys (kvs : List (String × Json)) : List String → Option Json
  | [] => none
  | k :: rest =>
      let val := (alist_get kvs k).getD .null
      if truthy val then some val else scan_keys kvs rest

/-- `pick_image(item)` from the script: scan the `images` role map in
priority order, then the flat synonym fields of the item itself. -/
def pick_image (item : Json) : Except String (Option Json) :=
  match item with
  | .obj ikvs =>
      let images := (alist_get ikvs "images").getD .null
      match images with
      | .obj kvs =>
          match scan_keys kvs IMAGE_PRIORITY_KEYS with
          | some v => .ok (some v)
          | none => .ok (scan_keys ikvs FLAT_IMAGE_KEYS)
      | _ => .ok (scan_keys ikvs FLAT_IMAGE_KEYS)
  | _ => .error "AttributeError: get on non-dict"

/-- The running accumulators of the `format_content_rating` loop. -/
structure CRAcc where
  esrb : Option String
  pegi : Option String
  first : Option String

/-- One iteration of the `format_content_rating` loop over a rating entry. -/
def cr_step (acc : CRAcc) (cr : Json) : Except String CRAcc := do
  let t ← py_get cr "type"
  let rtype ← py_upper (py_or t (.str ""))
  let c ← py_get cr "categoryKey"
  let cat ← py_interp (py_or c (.str ""))
  let label := py_strip (rtype ++ " " ++ cat)
  let first := match acc.first with
    | none => some label
    | some s => if s = "" then some label else acc.first
  let esrb := if rtype = "ESRB" then some label else acc.esrb
  let pegi := if rtype = "PEGI" then some label else acc.pegi
  return ⟨esrb, pegi, first⟩

/-- The `format_content_rating` loop over the whole rating list. -/
def cr_fold (acc : CRAcc) : List Json → Except String CRAcc
  | [] => .ok acc
  | cr :: rest => do
      let acc1 ← cr_step acc cr
      cr_fold acc1 rest

/-- `format_content_rating(item)` from the script. -/
def format_content_rating (item : Json) : Except String (Option String) :=
  match item with
  | .obj ikvs =>
      let content_ratings := (alist_get ikvs "contentRatings").getD .null
      match content_ratings with
      | .arr l =>
          if l.isEmpty then .ok none
          else do
            let acc ← cr_fold ⟨none, none, none⟩ l
            .ok (py_or_str acc.esrb (py_or_str acc.pegi acc.first))
      | _ => .ok none
  | _ => .error "AttributeError: get on non-dict"

/-- The fixed deep-link prefix of `build_play_url`. -/
def PLAY_URL_PREFIX : String := "https://play.geforcenow.com/mall/#/deeplink?game-id="

/-- `build_play_url(item)` from the script. -/
def build_play_url (item : Json) : Except String String := do
  let cms ← py_get item "cmsId"
  let idv ← py_get item "id"
  let game_id := py_or cms (py_or idv (.str ""))
  let gid ← py_interp game_id
  return PLAY_URL_PREFIX ++ gid

/-- The store cross-reference loop of `item_to_videogame` over `storeIds`. -/
def store_ids_fold (acc : List Json) : List Json → Except String (List Json)
  | [] => .ok acc
  | sid :: rest => do
      let st ← py_get sid "store"
      let store ← py_upper (py_or st (.str ""))
      let sidv ← py_get sid "id"
      let sid_val := py_or sidv (.str "")
      if (store == "STEAM") && truthy sid_val then do
        let s ← py_interp sid_val
        store_ids_fold (acc ++ [Json.str ("https://store.steampowered.com/app/" ++ s)]) rest
      else if (store == "EPIC") && truthy sid_val then do
        let s ← py_interp sid_val
        store_ids_fold (acc ++ [Json.str ("https://store.epicgames.com/p/" ++ s)]) rest
      else store_ids_fold acc rest

/-- One iteration of the variants loop of `item_to_videogame`: `none`
when the variant is skipped by the status filter, otherwise the built
edition entry. -/
def variant_edition (title_default : Json) (variant : Json) : Except String (Option Json) := do
  let g ← py_get variant "gfn"
  let gfn_info := py_or g (.obj [])
  let status ← py_get gfn_info "status"
  if truthy status && !(jeq status (.str "AVAILABLE") || jeq status (.str "MAINTENANCE")) then
    return none
  else do
    let asv ← py_get variant "appStore"
    let v_store := py_or asv (.str "")
    let tv ← py_get variant "title"
    let v_title := py_or tv title_default
    let name ← if truthy v_store then do
        let ts ← py_interp v_title
        let ss ← py_interp v_store
        pure (Json.str (ts ++ " (" ++ ss ++ ")"))
      else pure v_title
    let base := [("@context", Json.str "http://schema.org"),
                 ("@type", Json.str "VideoGame"),
                 ("name", name),
                 ("gamePlatform", Json.arr [Json.str "PC"])]
    let kvs := if truthy v_store then alist_set base "applicationCategory" v_store else base
    return some (Json.obj kvs)

/-- The variants loop of `item_to_videogame`. -/
def variants_fold (title_default : Json) (acc : List Json) :
    List Json → Except String (List Json)
  | [] => .ok acc
  | v :: rest => do
      match ← variant_edition title_default v with
      | none => variants_fold title_default acc rest
      | some ed => variants_fold title_default (acc ++ [ed]) rest

/-- The always-present primary streaming edition of `item_to_videogame`. -/
def primary_edition (titleInterp play_url : String) : Json :=
  Json.obj
    [("@context", Json.str "http://schema.org"),
     ("@type", Json.str "VideoGame"),
     ("name", Json.str (titleInterp ++ " (GeForce NOW)")),
     ("gamePlatform", Json.arr [Json.str "PC"]),
     ("potentialAction", Json.obj
       [("@type", Json.str "PlayGameAction"),
        ("target", Json.obj
          [("@type", Json.str "EntryPoint"),
           ("urlTemplate", Json.str play_url),
           ("actionPlatform", Json.arr [Json.str "http://schema.org/DesktopWebPlatform"])])])]

/-- A conditional dict write (`if cond: vg[k] = v`). -/
def set_if (cond : Bool) (l : List (String × Json)) (k : String) (v : Json) :
    List (String × Json) :=
  if cond then alist_set l k v else l

/-- `item_to_videogame(item)` from the script: convert one source record
(GraphQL item or static-JSON record) into a schema.org VideoGame object. -/
def item_to_videogame (item : Json) : Except String Json := do
  let play_url ← build_play_url item
  let image_url ← pick_image item
  let content_rating ← format_content_rating item
  let idv ← py_getD item "id" (.str "")
  let ids ← py_interp idv
  let title ← py_getD item "title" (.str "")
  let vg0 : List (String × Json) :=
    [("@context", Json.str "http://schema.org"),
     ("@type", Json.str "VideoGame"),
     ("@id", Json.str ("gfn-" ++ ids)),
     ("name", title),
     ("url", Json.str play_url),
     ("applicationCategory", Json.str "Game")]
  let ld ← py_get item "longDescription"
  let d2 ← py_get item "description"
  let desc := py_or ld d2
  let vg1 := set_if (truthy desc) vg0 "description" desc
  let genres ← py_get item "genres"
  let vg2 := set_if (truthy genres) vg1 "genre"
    (match genres with | .arr l => Json.arr l | g => Json.arr [g])
  let vg3 := set_if (truthy_str_opt content_rating) vg2 "contentRating"
    (Json.str (content_rating.getD ""))
  let vg4 := set_if (truthy (image_url.getD .null)) vg3 "image" (image_url.getD .null)
  let pn ← py_get item "publisherName"
  let p2 ← py_get item "publisher"
  let publisher := py_or pn p2
  let vg5 := set_if (truthy publisher) vg4 "publisher"
    (Json.obj [("@type", Json.str "Organization"), ("name", publisher)])
  let dn ← py_get item "developerName"
  let dv ← py_get item "developer"
  let developer := py_or dn dv
  let vg6 := set_if (truthy developer) vg5 "contributor"
    (Json.obj [("@type", Json.str "Organization"), ("name", developer),
               ("roleName", Json.str "developer")])
  let kw ← py_get item "keywords"
  let vg7 := set_if (truthy kw) vg6 "keywords"
    (match kw with | .arr l => Json.arr l | k => Json.arr [k])
  let ost ← py_get item "osType"
  let vg8 := set_if (truthy ost) vg7 "gamePlatform" (Json.arr [ost])
  let mop ← py_get item "maxOnlinePlayers"
  let vg9 := set_if (truthy mop) vg8 "numberOfPlayers" mop
  let mlp ← py_get item "maxLocalPlayers"
  let vg10 := set_if (truthy mlp) vg9 "numberOfPlayers" mlp
  let pm ← py_get item "supportedGamePlayModes"
  let vg11 := set_if (truthy pm) vg10 "playMode" pm
  let sidsv ← py_get item "storeIds"
  let sids ← py_iter (py_or sidsv (.arr []))
  let same_as0 ← store_ids_fold [] sids
  let steam_url ← py_get item "steamUrl"
  let same_as := if truthy steam_url && !(same_as0.any (fun y => jeq y steam_url)) then
      same_as0 ++ [steam_url]
    else same_as0
  let vg12 := set_if (!same_as.isEmpty) vg11 "sameAs" (Json.arr same_as)
  let cvv ← py_get item "computedValues"
  let computed := py_or cvv (.obj [])
  let erd ← py_get computed "earliestReleaseDate"
  let esd ← py_get computed "earliestStreetDate"
  let release := py_or erd esd
  let vg13 := set_if (truthy release) vg12 "datePublished" release
  let titleInterp ← py_interp title
  let vsv ← py_get item "variants"
  let vlist ← py_iter (py_or vsv (.arr []))
  let editions ← variants_fold title [primary_edition titleInterp play_url] vlist
  return Json.obj (alist_set vg13 "exampleOfWork" (Json.arr editions))

/-! ## Transport layer and retry wrapper -/

/-- The network, as the parsed outcome of the n-th HTTP POST of a run:
`.error` is a transport-level failure (connection error, non-2xx status,
JSON parse failure).  The request text is immaterial to the remote's
modelled behaviour, which is indexed by call order. -/
abbrev Env := Nat → Except String Json

def MAX_RETRIES : Nat := 3

def INITIAL_BACKOFF : Nat := 2

/-- `_post_graphql`: a single POST; on a 2xx response whose body carries
an `errors` key, raises `ValueError` (an application-level GraphQL
error).  Never retries. -/
def post_graphql (env : Env) (n : Nat) : Except String Json :=
  match env n with
  | .error e => .error e
  | .ok data =>
      match py_in (.str "errors") data with
      | .error e => .error e
      | .ok true => .error "GraphQL errors"
      | .ok false => .ok data

/-- Outcome of `_post_graphql_with_retry`, instrumented with the number
of transport calls made and the backoff delays slept. -/
structure RetryResult where
  result : Except String Json
  calls : Nat
  waits : List Nat

/-- The delay computed on the failure of attempt number `attempt`
(0-based): `INITIAL_BACKOFF * (2 ** attempt)`. -/
def backoff_wait (attempt : Nat) : Nat := INITIAL_BACKOFF * 2 ^ attempt

/-- The `for attempt in range(MAX_RETRIES)` loop of
`_post_graphql_with_retry`, carrying the last observed exception. -/
def retry_from (env : Env) (n : Nat) (attempt : Nat) :
    Nat → Option String → RetryResult
  | 0, last => ⟨.error (last.getD "TypeError: raise None"), 0, []⟩
  | remaining + 1, _ =>
      match post_graphql env (n + attempt) with
      | .ok d => ⟨.ok d, 1, []⟩
      | .error e =>
          let rest := retry_from env n (attempt + 1) remaining (some e)
          ⟨rest.result, rest.calls + 1, backoff_wait attempt :: rest.waits⟩

/-- `_post_graphql_with_retry(session, query)`, where `n` is the index of
the first transport call it makes. -/
def post_graphql_with_retry (env : Env) (n : Nat) : RetryResult :=
  retry_from env n 0 MAX_RETRIES none

/-! ## Schema introspection -/

/-- `types_map`: a Python dict keyed by `t["name"]` (an arbitrary JSON
value) mapping each type to its field dict keyed by `f["name"]`. -/
abbrev TypesMap := List (Json × List (Json × Json))

/-- Lookup in a dict keyed by JSON values (Python `==` on keys). -/
def alist_getJ (l : List (Json × Json)) (k : Json) : Option Json :=
  match l with
  | [] => none
  | (k1, v) :: rest => if jeq k1 k then some v else alist_getJ rest k

/-- Insertion/overwrite in a dict keyed by JSON values. -/
def alist_setJ (l : List (Json × Json)) (k : Json) (v : Json) : List (Json × Json) :=
  match l with
  | [] => [(k, v)]
  | (k1, v1) :: rest =>
      if jeq k1 k then (k, v) :: rest else (k1, v1) :: alist_setJ rest k v

def tm_get (tm : TypesMap) (k : Json) : Option (List (Json × Json)) :=
  match tm with
  | [] => none
  | (k1, v) :: rest => if jeq k1 k then some v else tm_get rest k

def tm_set (tm : TypesMap) (k : Json) (v : List (Json × Json)) : TypesMap :=
  match tm with
  | [] => [(k, v)]
  | (k1, v1) :: rest =>
      if jeq k1 k then (k, v) :: rest else (k1, v1) :: tm_set rest k v

/-- The dict comprehension of `introspect_schema`. -/
def fields_dict_fold (acc : List (Json × Json)) : List Json → Except String (List (Json × Json))
  | [] => .ok acc
  | f :: rest => do
      let nm ← py_index f "name"
      let tp ← py_index f "type"
      fields_dict_fold (alist_setJ acc nm tp) rest

/-- The loop of `introspect_schema` over the introspected type list. -/
def types_fold (acc : TypesMap) : List Json → Except String TypesMap
  | [] => .ok acc
  | t :: rest => do
      let fs ← py_get t "fields"
      if truthy fs then do
        let fl ← py_iter fs
        let fd ← fields_dict_fold [] fl
        let nm ← py_index t "name"
        types_fold (tm_set acc nm fd) rest
      else types_fold acc rest

/-- `introspect_schema`, applied to the parsed introspection response. -/
def introspect_schema (data : Json) : Except String TypesMap := do
  let d ← py_index data "data"
  let schema ← py_index d "__schema"
  let typesv ← py_index schema "types"
  let types ← py_iter typesv
  types_fold [] types

mutual

def jsize : Json → Nat
  | .arr l => 1 + jsizeList l
  | .obj l => 1 + jsizeObj l
  | _ => 1

def jsizeList : List Json → Nat
  | [] => 0
  | x :: xs => 1 + jsize x + jsizeList xs

def jsizeObj : List (String × Json) → Nat
  | [] => 0
  | (_, v) :: xs => 1 + jsize v + jsizeObj xs

end

/-- The `while t:` unwrapping loop of `_resolve_type_name`.  The fuel
only bounds the walk formally: each step descends into the `ofType`
value, a strict subterm, so the fuel passed by `_resolve_type_name`
is never exhausted. -/
def _resolve_type_name_go (fuel : Nat) (t : Json) : Except String Json :=
  match fuel with
  | 0 => .error "resolve fuel exhausted"
  | fuel + 1 =>
      if truthy t then do
        let namev ← py_get t "name"
        if truthy namev then do
          let kind ← py_index t "kind"
          if jeq kind (.str "NON_NULL") || jeq kind (.str "LIST") then
            _resolve_type_name_go fuel (← py_getD t "ofType" (.obj []))
          else
            .ok namev
        else
          _resolve_type_name_go fuel (← py_getD t "ofType" (.obj []))
      else .ok (.str "")

/-- `_resolve_type_name(type_info)`: walk through NonNull/List wrappers
to the bare type name (`""` if none found). -/
def _resolve_type_name (t : Json) : Except String Json :=
  _resolve_type_name_go (jsize t + 1) t

/-- `sep.join(keys)`: raises `TypeError` on a non-string element. -/
def py_join (sep : String) (l : List Json) : Except String String := do
  let ss ← l.mapM (fun j =>
    match j with
    | .str s => Except.ok s
    | _ => Except.error "TypeError: join non-str")
  return String.intercalate sep ss

/-- The GraphQL scalar type names excluded from sub-expansion by
`_build_selection`. -/
def SCALAR_TYPE_NAMES : List Json :=
  [.str "String", .str "Int", .str "Float", .str "Boolean", .str "ID"]

mutual

/-- `_build_selection(fields, types_map, depth)`: recursively build a
GraphQL selection set from the known fields, bounded by `depth`. -/
def _build_selection (types_map : TypesMap) (depth : Nat) (fields : List (Json × Json)) :
    Except String String :=
  if fields.isEmpty then py_join " " (fields.map (fun p => p.1))
  else
    match depth with
    | 0 => py_join " " (fields.map (fun p => p.1))
    | d + 1 => do
        let lines ← bsel_fold types_map d fields
        return String.intercalate "\n" lines
termination_by (depth, fields.length + 1)

/-- The loop of `_build_selection` over its field dict; `subdepth` is the
depth passed to recursive expansions. -/
def bsel_fold (types_map : TypesMap) (subdepth : Nat) (fields : List (Json × Json)) :
    Except String (List String) :=
  match fields with
  | [] => .ok []
  | (fname, ftype) :: rest => do
      let resolved ← _resolve_type_name ftype
      let sub_fields := (tm_get types_map resolved).getD []
      match fname with
      | .str fs =>
          if fs.startsWith "__" then bsel_fold types_map subdepth rest
          else if !sub_fields.isEmpty && !(SCALAR_TYPE_NAMES.any (fun s => jeq resolved s)) then do
            let sub_sel ← _build_selection types_map subdepth sub_fields
            let restl ← bsel_fold types_map subdepth rest
            return ("      " ++ fs ++ " \x7b " ++ sub_sel ++ " \x7d") :: restl
          else do
            let restl ← bsel_fold types_map subdepth rest
            return ("      " ++ fs) :: restl
      | _ => .error "AttributeError: startswith on non-string"
termination_by (subdepth + 1, fields.length)

end

/-- `discover_apps_query_fields(types_map)`: `.ok none` models the
Python `return None`. -/
def discover_apps_query_fields (types_map : TypesMap) : Except String (Option String) := do
  let qt1 := (tm_get types_map (.str "Query")).getD []
  let query_type := if qt1.isEmpty then (tm_get types_map (.str "Root")).getD [] else qt1
  if (alist_getJ query_type (.str "apps")).isNone then return none
  else do
    let apps_type_info := (alist_getJ query_type (.str "apps")).getD .null
    let apps_type_name ← _resolve_type_name apps_type_info
    let apps_fields := (tm_get types_map apps_type_name).getD []
    if apps_fields.isEmpty then return none
    else do
      let items_type_name ← match alist_getJ apps_fields (.str "items") with
        | some ti => do
            let r ← _resolve_type_name ti
            pure (some r)
        | none => pure none
      let items_fields := match items_type_name with
        | some nm => if truthy nm then (tm_get types_map nm).getD [] else []
        | none => []
      let items_selection ← _build_selection types_map 2 items_fields
      let page_info_fields := (tm_get types_map (.str "PageInfo")).getD []
      let page_info_selection ←
        if !page_info_fields.isEmpty then py_join " " (page_info_fields.map (fun p => p.1))
        else pure "hasNextPage endCursor totalCount"
      return some ("numberReturned\n    pageInfo \x7b " ++ page_info_selection ++
        " \x7d\n    items \x7b\n" ++ items_selection ++ "\n    \x7d")

/-- `try_introspected_query(session)`: returns the discovered field text
(or `none`) and the index of the next unused transport call.  Call `n` is
the introspection POST; on success of the whole discovery a single probe
POST follows at `n + 1`.  Any raised exception is caught and yields
`none`. -/
def try_introspected_query (env : Env) (n : Nat) : Option String × Nat :=
  match post_graphql env n with
  | .error _ => (none, n + 1)
  | .ok data =>
      match (do
          let tm ← introspect_schema data
          discover_apps_query_fields tm : Except String (Option String)) with
      | .error _ => (none, n + 1)
      | .ok none => (none, n + 1)
      | .ok (some fields) =>
          match (do
              let d ← post_graphql env (n + 1)
              let dd ← py_getD d "data" (.obj [])
              let aa ← py_getD dd "apps" (.obj [])
              py_getD aa "items" (.arr []) : Except String Json) with
          | .error _ => (none, n + 2)
          | .ok .null => (none, n + 2)
          | .ok items =>
              match py_len items with
              | .error _ => (none, n + 2)
              | .ok _ => (some fields, n + 2)

/-! ## Query-shape selection and pagination -/

/-- The number of entries of `QUERY_TEMPLATES` (their text is immaterial
to the call-indexed network model). -/
def NUM_QUERY_TEMPLATES : Nat := 3

/-- One probe of `probe_working_template`: the POST plus the item
extraction and `len` call of its `try:` block. -/
def probe_one (env : Env) (n : Nat) : Except String Unit := do
  let data ← post_graphql env n
  let d ← py_getD data "data" (.obj [])
  let a ← py_getD d "apps" (.obj [])
  let items ← py_getD a "items" (.arr [])
  let _ ← py_len items
  return ()

/-- The `for idx, template in enumerate(QUERY_TEMPLATES)` loop: one
transport call per candidate, stopping at the first success. -/
def probe_from (env : Env) (n : Nat) : List Nat → Option Nat × Nat
  | [] => (none, n)
  | idx :: rest =>
      match probe_one env n with
      | .ok _ => (some idx, n + 1)
      | .error _ => probe_from env (n + 1) rest

/-- `probe_working_template(session)`: the chosen template index (or
`none`) and the next unused transport call index. -/
def probe_working_template (env : Env) (n : Nat) : Option Nat × Nat :=
  probe_from env n (List.range NUM_QUERY_TEMPLATES)

/-- The query shape selected by steps 1–2 of `fetch_all_graphql`. -/
inductive Shape where
  | introspected (fields : String)
  | template (idx : Nat)
deriving DecidableEq

/-- Steps 1–2 of `fetch_all_graphql`: introspected query first, then the
static templates in index order. -/
def select_shape (env : Env) (n : Nat) : Option Shape × Nat :=
  match try_introspected_query env n with
  | (fieldsOpt, n1) =>
      if truthy_str_opt fieldsOpt then (some (.introspected (fieldsOpt.getD "")), n1)
      else
        match probe_working_template env n1 with
        | (some idx, n2) => (some (.template idx), n2)
        | (none, n2) => (none, n2)

/-- Extraction of one pagination response: `data["data"]["apps"]`,
`items`, `pageInfo`, the continuation flag and the continuation token. -/
def page_parts (data : Json) : Except String (List Json × Bool × Json) := do
  let d ← py_index data "data"
  let apps ← py_index d "apps"
  let itemsv ← py_get apps "items"
  let items ← py_iter (py_or itemsv (.arr []))
  let piv ← py_get apps "pageInfo"
  let page_info := py_or piv (.obj [])
  let hn ← py_get page_info "hasNextPage"
  let endCursor ← py_getD page_info "endCursor" (.str "")
  return (items, truthy hn, endCursor)

/-- The `while True:` pagination loop of `fetch_all_graphql` (step 3).
Result: the Python return value (`.ok (some items)` / `.ok none`) or an
uncaught exception (`.error`); the per-page trace of (cursor used,
transport calls consumed); and the next unused transport call index.
`none` means the fuel bound was reached before the loop terminated. -/
def fetch_pages (env : Env) :
    Nat → List Json → Json → Nat →
    Option (Except String (Option (List Json)) × List (Json × Nat) × Nat)
  | 0, _, _, _ => none
  | fuel + 1, acc, cursor, n =>
      let r := post_graphql_with_retry env n
      let n1 := n + r.calls
      match r.result with
      | .error _ =>
          some (.ok (if acc.isEmpty then none else some acc), [(cursor, r.calls)], n1)
      | .ok data =>
          match page_parts data with
          | .error e => some (.error e, [(cursor, r.calls)], n1)
          | .ok (items, hasNext, endCursor) =>
              let acc1 := acc ++ items
              if hasNext then
                match fetch_pages env fuel acc1 endCursor n1 with
                | none => none
                | some (res, tr, nf) => some (res, (cursor, r.calls) :: tr, nf)
              else
                some (.ok (some acc1), [(cursor, r.calls)], n1)

/-- Outcome of `fetch_all_graphql`, instrumented with the selected shape,
the per-page trace and the total number of transport calls. -/
structure FetchOutcome where
  result : Except String (Option (List Json))
  shape : Option Shape
  pages : List (Json × Nat)
  calls : Nat

/-- `fetch_all_graphql(session)`: shape selection followed by
pagination from an empty cursor.  `.ok none` models `return None`
("all GraphQL query approaches failed" or a zero-item pagination
failure). -/
def fetch_all_graphql (env : Env) (fuel : Nat) : Option FetchOutcome :=
  match select_shape env 0 with
  | (none, n1) => some ⟨.ok none, none, [], n1⟩
  | (some sh, n1) =>
      match fetch_pages env fuel [] (.str "") n1 with
      | none => none
      | some (res, tr, nf) => some ⟨res, some sh, tr, nf⟩

/-- The dispatch of `main`: a `None` result of `fetch_all_graphql`
triggers the static flat-file fallback. -/
def choose_source (graphql_result : Option (List Json)) (static_games : List Json) : List Json :=
  match graphql_result with
  | some items => items
  | none => static_games

/-! ## Well-shapedness of source records

`item_to_videogame` is written for records whose fields, when present,
carry the JSON shapes the two acquisition paths produce.  The predicate
`item_wf` captures exactly the shapes under which no field access of the
normalizer can raise (for example a `storeIds` entry must be an object,
because the code calls `.get` on it). -/

/-- A JSON value that is not a container, i.e. safe to interpolate into
an f-string in the model (`py_interp` succeeds on it). -/
def scalarish : Json → Bool
  | .arr _ => false
  | .obj _ => false
  | _ => true

/-- A value `v` such that `(v or "").upper()` cannot raise: a string, or
falsy. -/
def falsy_or_str : Json → Bool
  | .str _ => true
  | v => !truthy v

/-- A value that is falsy or safe to interpolate. -/
def falsy_or_scalarish (v : Json) : Bool := !truthy v || scalarish v

/-- Well-shapedness of one `contentRatings` entry. -/
def cr_entry_wf (cr : Json) : Bool :=
  match cr with
  | .obj kvs =>
      falsy_or_str ((alist_get kvs "type").getD .null) &&
      falsy_or_scalarish ((alist_get kvs "categoryKey").getD .null)
  | _ => false

/-- Well-shapedness of one `storeIds` entry. -/
def storeid_wf (sid : Json) : Bool :=
  match sid with
  | .obj kvs =>
      falsy_or_str ((alist_get kvs "store").getD .null) &&
      falsy_or_scalarish ((alist_get kvs "id").getD .null)
  | _ => false

/-- Well-shapedness of one `variants` entry. -/
def variant_wf (v : Json) : Bool :=
  match v with
  | .obj kvs =>
      (match (alist_get kvs "gfn").getD .null with
       | .obj _ => true
       | g => !truthy g) &&
      falsy_or_scalarish ((alist_get kvs "appStore").getD .null) &&
      falsy_or_scalarish ((alist_get kvs "title").getD .null)
  | _ => false

/-- Well-shapedness of a whole source record. -/
def item_wf (item : Json) : Bool :=
  match item with
  | .obj kvs =>
      scalarish ((alist_get kvs "title").getD .null) &&
      scalarish ((alist_get kvs "id").getD .null) &&
      scalarish ((alist_get kvs "cmsId").getD .null) &&
      (match (alist_get kvs "contentRatings").getD .null with
       | .arr l => l.all cr_entry_wf
       | _ => true) &&
      (match (alist_get kvs "storeIds").getD .null with
       | .arr l => l.all storeid_wf
       | v => !truthy v) &&
      (match (alist_get kvs "computedValues").getD .null with
       | .obj _ => true
       | v => !truthy v) &&
      (match (alist_get kvs "variants").getD .null with
       | .arr l => l.all variant_wf
       | v => !truthy v)
  | _ => false

/-! ## Specification-side characterizations

These definitions state, in structural terms, what the claims (as
amended where necessary) predict, and are compared with the embedded
code by the theorems below. -/

/-- The variant inclusion condition of the edition list: the status is
absent, falsy, or within the allow-list.  (Read through the same access
path as the code: `variant.get("gfn") or {}`, then `.get("status")`.) -/
def variant_included (v : Json) : Bool :=
  let status := match v with
    | .obj kvs =>
        (match (alist_get kvs "gfn").getD .null with
         | .obj g => (alist_get g "status").getD .null
         | _ => Json.null)
    | _ => Json.null
  !truthy status || (jeq status (.str "AVAILABLE") || jeq status (.str "MAINTENANCE"))

/-- The element list of a JSON array, empty for any other value. -/
def arr_or_nil : Json → List Json
  | .arr l => l
  | _ => []

/-- The variant list of a record (empty when the field is absent or
falsy). -/
def variants_list (kvs : List (String × Json)) : List Json :=
  arr_or_nil ((alist_get kvs "variants").getD .null)

/-- The uppercased rating authority of one rating entry (for well-shaped
entries). -/
def entry_rtype (cr : Json) : String :=
  match cr with
  | .obj kvs =>
      match py_or ((alist_get kvs "type").getD .null) (.str "") with
      | .str s => String.mk (s.data.map Char.toUpper)
      | _ => ""
  | _ => ""

/-- The interpolated category part of one rating entry (for well-shaped
entries). -/
def entry_cat (cr : Json) : String :=
  match cr with
  | .obj kvs =>
      match py_or ((alist_get kvs "categoryKey").getD .null) (.str "") with
      | .str s => s
      | .num n => toString n
      | .bool true => "True"
      | .bool false => "False"
      | _ => "None"
  | _ => ""

/-- The formatted `"<AUTHORITY> <CATEGORY>"` label of one rating entry
(for well-shaped entries). -/
def entry_label (cr : Json) : String :=
  py_strip (entry_rtype cr ++ " " ++ entry_cat cr)

/-- The label of the last ESRB-tagged entry of a rating list, if any. -/
def esrb_of : List Json → Option String
  | [] => none
  | cr :: rest =>
      match esrb_of rest with
      | some s => some s
      | none => if entry_rtype cr = "ESRB" then some (entry_label cr) else none

/-- The label of the last PEGI-tagged entry of a rating list, if any. -/
def pegi_of : List Json → Option String
  | [] => none
  | cr :: rest =>
      match pegi_of rest with
      | some s => some s
      | none => if entry_rtype cr = "PEGI" then some (entry_label cr) else none

/-- The fallback label of a rating list: the first entry whose formatted
label is non-empty, else the (empty) label of the last entry. -/
def first_of : List Json → Option String
  | [] => none
  | cr :: rest =>
      if entry_label cr ≠ "" then some (entry_label cr)
      else
        match first_of rest with
        | some s => some s
        | none => some (entry_label cr)

/-- The deep-link identifier the claim predicts for `build_play_url`:
the record's `cmsId` when present and non-empty, else its `id`, else
empty (stated for records whose identifier fields are strings when
present). -/
def claimed_game_id (kvs : List (String × Json)) : String :=
  let c := match (alist_get kvs "cmsId").getD .null with | .str s => s | _ => ""
  let i := match (alist_get kvs "id").getD .null with | .str s => s | _ => ""
  if c ≠ "" then c else if i ≠ "" then i else ""

/-- A field that is a string or absent (`null`). -/
def str_or_null : Json → Bool
  | .str _ => true
  | .null => true
  | _ => false

/-- An abstract well-formed pagination page, as the remote would serve
it. -/
structure Page where
  items : List Json
  hasNext : Bool
  endCursor : String

/-- The response body of a well-formed page. -/
def page_body (p : Page) : Json :=
  Json.obj [("data", Json.obj [("apps", Json.obj
    [("items", Json.arr p.items),
     ("pageInfo", Json.obj
       [("hasNextPage", Json.bool p.hasNext),
        ("endCursor", Json.str p.endCursor)])])])]

/-- The Python return value of the pagination loop (`None` on a raised
exception or exhausted fuel): what `main` sees from `fetch_all_graphql`'s
paging phase. -/
def fetch_result
    (r : Option (Except String (Option (List Json)) × List (Json × Nat) × Nat)) :
    Option (List Json) :=
  match r with
  | some (.ok v, _, _) => v
  | _ => none

/-! ## Accessors used by the theorem statements -/

/-- Field lookup on a JSON object (`none` on non-objects or absent keys). -/
def jget (j : Json) (k : String) : Option Json :=
  match j with
  | .obj kvs => alist_get kvs k
  | _ => none

/-- The value of a successful computation. -/
def getOk : Except String Json → Option Json
  | .ok v => some v
  | .error _ => none

/-- Lookup of field `k` in the result of a record normalization. -/
def vg_field (r : Except String Json) (k : String) : Option Json :=
  (getOk r).bind (fun vg => jget vg k)

/-- The length of the edition list of a normalized record. -/
def editions_length (r : Except String Json) : Option Nat :=
  match vg_field r "exampleOfWork" with
  | some (.arr l) => some l.length
  | _ => none

/-- The `PlayGameAction` target URL template of the primary (first)
edition of a normalized entity. -/
def primary_urlTemplate (vg : Json) : Option Json :=
  match jget vg "exampleOfWork" with
  | some (.arr (e :: _)) =>
      (jget e "potentialAction").bind fun pa =>
        (jget pa "target").bind fun t => jget t "urlTemplate"
  | _ => none

/-- The first of two optional strings, preferring a present first. -/
def opt_or (a b : Option String) : Option String :=
  match a with
  | some x => some x
  | none => b

/-- The accumulated `first` after processing `l` with starting value
`f0`. -/
def first_comb (f0 : Option String) (l : List Json) : Option String :=
  if truthy_str_opt f0 then f0 else if l.isEmpty then f0 else first_of l

/-- A small concrete catalogue record used by witnesses. -/
def alphaItem : Json :=
  Json.obj [("title", Json.str "Alpha"), ("id", Json.str "123"),
    ("variants", Json.arr [Json.obj [("gfn", Json.obj [("status", Json.str "AVAILABLE")])]])]

/-! ## Basic lemmas about the embedding primitives -/

theorem except_bind_ok {α β : Type} (a : α) (f : α → Except String β) :
    (Except.ok a >>= f : Except String β) = f a := rfl

theorem except_pure_eq {α : Type} (a : α) : (pure a : Except String α) = Except.ok a := rfl

theorem alist_get_set (l : List (String × Json)) (k : String) (v : Json) (k2 : String) :
    alist_get (alist_set l k v) k2 = if k = k2 then some v else alist_get l k2 := by
  induction l with
  | nil => simp [alist_set, alist_get]
  | cons p rest ih =>
      obtain ⟨k1, v1⟩ := p
      by_cases h1 : k1 = k
      · subst h1
        simp only [alist_set, if_pos rfl, alist_get]
        split_ifs <;> simp_all [alist_get]
      · simp only [alist_set, if_neg h1, alist_get, ih]
        split_ifs <;> simp_all

theorem alist_get_set_if (c : Bool) (l : List (String × Json)) (k : String) (v : Json)
    (k2 : String) :
    alist_get (set_if c l k v) k2 =
      if k = k2 then (if c then some v else alist_get l k2) else alist_get l k2 := by
  cases c <;> simp [set_if, alist_get_set]

theorem scan_keys_found (kvs : List (String × Json)) (pre : List String) (k : String)
    (post : List String)
    (hpre : ∀ k2 ∈ pre, truthy ((alist_get kvs k2).getD .null) = false)
    (hk : truthy ((alist_get kvs k).getD .null) = true) :
    scan_keys kvs (pre ++ k :: post) = some ((alist_get kvs k).getD .null) := by
  induction pre with
  | nil => simp [scan_keys, hk]
  | cons p rest ih =>
      have hp := hpre p (by simp)
      simp only [List.cons_append, scan_keys, hp, Bool.false_eq_true, if_false]
      exact ih (fun k2 h2 => hpre k2 (by simp [h2]))

/-! ## C2 -/

/-- C2 counterexample: an image-role map whose only non-empty role
(`KEY_ICON`) lies outside the fixed priority list makes `pick_image`
return no image at all, not "a value drawn from the fixed priority
list". -/
theorem pick_image_nonlisted_role_counterexample :
    pick_image (Json.obj [("images", Json.obj [("KEY_ICON", Json.str "x")])]) = .ok none ∧
    truthy (Json.str "x") = true ∧
    "KEY_ICON" ∉ IMAGE_PRIORITY_KEYS := by
  refine ⟨rfl, rfl, by decide⟩

/-- C2 amended: for every image-role map containing at least one
priority-listed role with a truthy value, `pick_image` returns the value
of the highest-priority (first in the fixed order) such role — in
particular a value of a role from the list, never of a role outside
it. -/
theorem pick_image_highest_priority (ikvs kvs : List (String × Json))
    (pre : List String) (k : String) (post : List String)
    (him : alist_get ikvs "images" = some (Json.obj kvs))
    (hsplit : IMAGE_PRIORITY_KEYS = pre ++ k :: post)
    (hpre : ∀ k2 ∈ pre, truthy ((alist_get kvs k2).getD .null) = false)
    (hk : truthy ((alist_get kvs k).getD .null) = true) :
    k ∈ IMAGE_PRIORITY_KEYS ∧
    pick_image (Json.obj ikvs) = .ok (some ((alist_get kvs k).getD .null)) := by
  constructor
  · rw [hsplit]; simp
  · simp only [pick_image, him, Option.getD_some]
    rw [hsplit, scan_keys_found kvs pre k post hpre hk]

/-- C2 witness: `KEY_IMAGE` beats the lower-priority roles when the two
higher-priority roles are empty or absent. -/
theorem pick_image_highest_priority_witness :
    "KEY_IMAGE" ∈ IMAGE_PRIORITY_KEYS ∧
    pick_image (Json.obj [("images", Json.obj
      [("GAME_BOX_ART", Json.str ""), ("KEY_IMAGE", Json.str "kk"),
       ("TV_BANNER", Json.str "tv")])]) = .ok (some (Json.str "kk")) := by
  have h := pick_image_highest_priority
    [("images", Json.obj [("GAME_BOX_ART", Json.str ""), ("KEY_IMAGE", Json.str "kk"),
       ("TV_BANNER", Json.str "tv")])]
    [("GAME_BOX_ART", Json.str ""), ("KEY_IMAGE", Json.str "kk"), ("TV_BANNER", Json.str "tv")]
    ["GAME_BOX_ART", "KEY_ART"] "KEY_IMAGE"
    ["HERO_IMAGE", "FEATURE_IMAGE", "MARQUEE_HERO_IMAGE", "TV_BANNER"]
    rfl (by decide) (by decide) (by decide)
  simpa using h

/-! ## C7 -/

theorem py_upper_or_rtype (kvs : List (String × Json))
    (h : falsy_or_str ((alist_get kvs "type").getD .null) = true) :
    py_upper (py_or ((alist_get kvs "type").getD .null) (.str "")) =
      .ok (entry_rtype (Json.obj kvs)) := by
  rcases hT : (alist_get kvs "type").getD .null with _ | b | n | s | l | o <;>
    simp_all [falsy_or_str, truthy, py_or, py_upper, entry_rtype]
  · by_cases hs : s = "" <;> simp_all

theorem py_interp_or_cat (kvs : List (String × Json))
    (h : falsy_or_scalarish ((alist_get kvs "categoryKey").getD .null) = true) :
    py_interp (py_or ((alist_get kvs "categoryKey").getD .null) (.str "")) =
      .ok (entry_cat (Json.obj kvs)) := by
  rcases hC : (alist_get kvs "categoryKey").getD .null with _ | b | n | s | l | o <;>
    simp_all [falsy_or_scalarish, scalarish, truthy, py_or, py_interp, entry_cat]
  · cases b <;> simp_all
  · by_cases hn : n = 0 <;> simp_all
  · by_cases hs : s = "" <;> simp_all

theorem cr_step_wf (acc : CRAcc) (cr : Json) (h : cr_entry_wf cr = true) :
    cr_step acc cr =
      .ok ⟨(if entry_rtype cr = "ESRB" then some (entry_label cr) else acc.esrb),
           (if entry_rtype cr = "PEGI" then some (entry_label cr) else acc.pegi),
           (match acc.first with
            | none => some (entry_label cr)
            | some s => if s = "" then some (entry_label cr) else acc.first)⟩ := by
  rcases cr with _ | b | n | s | l | kvs
  case null => simp [cr_entry_wf] at h
  case bool => simp [cr_entry_wf] at h
  case num => simp [cr_entry_wf] at h
  case str => simp [cr_entry_wf] at h
  case arr => simp [cr_entry_wf] at h
  case obj =>
    simp only [cr_entry_wf, Bool.and_eq_true] at h
    obtain ⟨ht, hc⟩ := h
    simp only [cr_step, py_get, except_bind_ok, py_upper_or_rtype kvs ht,
      py_interp_or_cat kvs hc, entry_label]
    rfl

theorem opt_or_none (a : Option String) : opt_or a none = a := by cases a <;> rfl

theorem first_of_isSome (l : List Json) (h : l ≠ []) : (first_of l).isSome = true := by
  cases l with
  | nil => simp at h
  | cons cr rest =>
      simp only [first_of]
      split_ifs
      · simp
      · cases first_of rest <;> simp

theorem first_of_cons_of_empty (cr : Json) (rest : List Json) (hl : entry_label cr = "")
    (hne : rest ≠ []) : first_of (cr :: rest) = first_of rest := by
  rw [first_of]
  rcases hO : first_of rest with _ | x
  · have hS := first_of_isSome rest hne
    rw [hO] at hS
    simp at hS
  · simp [hl]

theorem first_of_cons_of_ne (cr : Json) (rest : List Json) (hl : entry_label cr ≠ "") :
    first_of (cr :: rest) = some (entry_label cr) := by
  rw [first_of]
  simp [hl]

/-- One step of the `first` accumulator agrees with `first_comb`. -/
theorem first_comb_step (f0 : Option String) (cr : Json) (rest : List Json) :
    first_comb (match f0 with
      | none => some (entry_label cr)
      | some s => if s = "" then some (entry_label cr) else f0) rest
    = first_comb f0 (cr :: rest) := by
  have hstep : (f0 = none ∨ f0 = some "") →
      first_comb (some (entry_label cr)) rest = first_comb f0 (cr :: rest) := by
    intro hf0
    have hf : truthy_str_opt f0 = false := by
      rcases hf0 with h | h <;> simp [h, truthy_str_opt]
    by_cases hl : entry_label cr = ""
    · have hL : truthy_str_opt (some (entry_label cr)) = false := by
        simp [truthy_str_opt, hl]
      simp only [first_comb, hf, hL, Bool.false_eq_true, if_false, List.isEmpty_cons]
      rcases rest with _ | ⟨c2, r2⟩
      · simp [first_of, hl]
      · rw [first_of_cons_of_empty cr _ hl (by simp)]
        simp
    · have hL : truthy_str_opt (some (entry_label cr)) = true := by
        simp [truthy_str_opt, hl]
      simp only [first_comb, hf, hL, if_true, Bool.false_eq_true, if_false,
        List.isEmpty_cons]
      rw [first_of_cons_of_ne cr rest hl]
  rcases hF : f0 with _ | s
  · have h2 := hstep (Or.inl hF)
    rw [hF] at h2
    exact h2
  · by_cases hs : s = ""
    · subst hs
      have h2 := hstep (Or.inr hF)
      rw [hF] at h2
      exact h2
    · simp [first_comb, truthy_str_opt, hs]

theorem cr_fold_wf (l : List Json) (acc : CRAcc)
    (h : ∀ cr ∈ l, cr_entry_wf cr = true) :
    cr_fold acc l =
      .ok ⟨opt_or (esrb_of l) acc.esrb, opt_or (pegi_of l) acc.pegi,
           first_comb acc.first l⟩ := by
  induction l generalizing acc with
  | nil => simp [cr_fold, opt_or, esrb_of, pegi_of, first_comb]
  | cons cr rest ih =>
      have hcr := h cr (by simp)
      have hrest : ∀ c ∈ rest, cr_entry_wf c = true := fun c hc => h c (by simp [hc])
      simp only [cr_fold, cr_step_wf acc cr hcr, except_bind_ok, ih _ hrest,
        Except.ok.injEq, CRAcc.mk.injEq]
      refine ⟨?_, ?_, first_comb_step acc.first cr rest⟩
      · cases hE : esrb_of rest <;> by_cases hR : entry_rtype cr = "ESRB" <;>
          simp [opt_or, esrb_of, hE, hR]
      · cases hE : pegi_of rest <;> by_cases hR : entry_rtype cr = "PEGI" <;>
          simp [opt_or, pegi_of, hE, hR]

theorem py_strip_esrb_ne (t : String) : py_strip ("ESRB" ++ t) ≠ "" := by
  simp only [py_strip]
  intro hcontra
  have hl := congrArg String.data hcontra
  simp only at hl
  rw [List.reverse_eq_nil_iff, List.dropWhile_eq_nil_iff] at hl
  have hdata : ("ESRB" ++ t).data = 'E' :: 'S' :: 'R' :: 'B' :: t.data := rfl
  rw [hdata] at hl
  have hdrop : List.dropWhile Char.isWhitespace ('E' :: 'S' :: 'R' :: 'B' :: t.data) =
      'E' :: 'S' :: 'R' :: 'B' :: t.data := by
    rw [List.dropWhile_cons_of_neg (by decide)]
  rw [hdrop] at hl
  have hE := hl 'E' (by simp)
  exact absurd hE (by decide)

theorem esrb_of_mem (l : List Json) (s : String) (h : esrb_of l = some s) :
    ∃ cr, cr ∈ l ∧ entry_rtype cr = "ESRB" ∧ s = entry_label cr := by
  induction l with
  | nil => simp [esrb_of] at h
  | cons cr rest ih =>
      rw [esrb_of] at h
      rcases hE : esrb_of rest with _ | x
      · rw [hE] at h
        split_ifs at h with hR
        exact ⟨cr, by simp, hR, by injection h with h2; exact h2.symm⟩
      · rw [hE] at h
        have h2 : (some x : Option String) = some s := h
        injection h2 with h3
        subst h3
        obtain ⟨c, hc, hr, hs⟩ := ih hE
        exact ⟨c, by simp [hc], hr, hs⟩

theorem entry_label_esrb_ne (cr : Json) (h : entry_rtype cr = "ESRB") :
    entry_label cr ≠ "" := by
  rw [entry_label, h, String.append_assoc]
  exact py_strip_esrb_ne _

/-- C7 amended: for every well-shaped rating list, the result is the
label of the last ESRB-tagged entry when one exists (so in particular,
with a unique ESRB entry, that entry's non-empty
`"<AUTHORITY> <CATEGORY>"` label, regardless of its position), else the
last PEGI label is preferred, else the first entry whose formatted label
is non-empty is used (an entry with an empty label is skipped, not
treated as "the first entry encountered"). -/
theorem format_content_rating_spec (ikvs : List (String × Json)) (l : List Json)
    (hcr : alist_get ikvs "contentRatings" = some (Json.arr l))
    (hne : l ≠ [])
    (hwf : ∀ cr ∈ l, cr_entry_wf cr = true) :
    format_content_rating (Json.obj ikvs) =
      .ok (py_or_str (esrb_of l) (py_or_str (pegi_of l) (first_of l))) ∧
    ∀ s, esrb_of l = some s →
      s ≠ "" ∧ format_content_rating (Json.obj ikvs) = .ok (some s) := by
  have hie : l.isEmpty = false := by
    rcases l with _ | ⟨c, r⟩
    · exact absurd rfl hne
    · rfl
  have hmain : format_content_rating (Json.obj ikvs) =
      .ok (py_or_str (esrb_of l) (py_or_str (pegi_of l) (first_of l))) := by
    have hget : (alist_get ikvs "contentRatings").getD Json.null = Json.arr l := by
      rw [hcr]
      rfl
    have h1 : format_content_rating (Json.obj ikvs) = (do
        let acc ← cr_fold ⟨none, none, none⟩ l
        Except.ok (py_or_str acc.esrb (py_or_str acc.pegi acc.first))) := by
      simp [format_content_rating, hget, hie]
    rw [h1, cr_fold_wf l ⟨none, none, none⟩ hwf, except_bind_ok]
    have h2 : first_comb none l = first_of l := by
      simp [first_comb, truthy_str_opt, hie]
    rw [opt_or_none, opt_or_none, h2]
  refine ⟨hmain, fun s hs => ?_⟩
  obtain ⟨cr, hmem, hr, hlab⟩ := esrb_of_mem l s hs
  have hne2 : s ≠ "" := by rw [hlab]; exact entry_label_esrb_ne cr hr
  refine ⟨hne2, ?_⟩
  rw [hmain, hs]
  simp [py_or_str, hne2]

/-- C7 witness: a list with a PEGI entry before an ESRB entry still
yields the ESRB label. -/
theorem format_content_rating_spec_witness :
    format_content_rating (Json.obj [("contentRatings", Json.arr
      [Json.obj [("type", Json.str "pegi"), ("categoryKey", Json.str "18")],
       Json.obj [("type", Json.str "esrb"), ("categoryKey", Json.str "MATURE")]])]) =
      .ok (some "ESRB MATURE") ∧ "ESRB MATURE" ≠ "" := by
  have h := format_content_rating_spec
    [("contentRatings", Json.arr
      [Json.obj [("type", Json.str "pegi"), ("categoryKey", Json.str "18")],
       Json.obj [("type", Json.str "esrb"), ("categoryKey", Json.str "MATURE")]])]
    [Json.obj [("type", Json.str "pegi"), ("categoryKey", Json.str "18")],
     Json.obj [("type", Json.str "esrb"), ("categoryKey", Json.str "MATURE")]]
    rfl (by simp) (by decide)
  have h2 := h.2 "ESRB MATURE" (by decide)
  exact ⟨h2.2, h2.1⟩

/-- C7 counterexample: with no ESRB or PEGI entry, the code does not fall
back to "the first entry encountered": an entry whose authority and
category are empty (label `""`) is skipped, and the second entry's label
is returned. -/
theorem content_rating_first_label_counterexample :
    format_content_rating (Json.obj [("contentRatings", Json.arr
      [Json.obj [("type", Json.str ""), ("categoryKey", Json.str "")],
       Json.obj [("type", Json.str "AB"), ("categoryKey", Json.str "C")]])]) =
      .ok (some "AB C") ∧
    entry_label (Json.obj [("type", Json.str ""), ("categoryKey", Json.str "")]) = "" ∧
    entry_rtype (Json.obj [("type", Json.str ""), ("categoryKey", Json.str "")]) ≠ "ESRB" ∧
    entry_rtype (Json.obj [("type", Json.str ""), ("categoryKey", Json.str "")]) ≠ "PEGI" ∧
    entry_rtype (Json.obj [("type", Json.str "AB"), ("categoryKey", Json.str "C")]) ≠ "ESRB" ∧
    entry_rtype (Json.obj [("type", Json.str "AB"), ("categoryKey", Json.str "C")]) ≠ "PEGI" ∧
    ("AB C" : String) ≠ "" := by
  refine ⟨rfl, rfl, by decide, by decide, by decide, by decide, by decide⟩

/-! ## C8 -/

/-- Closed-form evaluation of the retry wrapper over its (at most) three
transport calls. -/
theorem pgwr_eq (env : Env) (n : Nat) :
    post_graphql_with_retry env n =
      match post_graphql env n with
      | .ok d => ⟨.ok d, 1, []⟩
      | .error _ =>
        match post_graphql env (n + 1) with
        | .ok d => ⟨.ok d, 2, [2]⟩
        | .error _ =>
          match post_graphql env (n + 2) with
          | .ok d => ⟨.ok d, 3, [2, 4]⟩
          | .error e2 => ⟨.error e2, 3, [2, 4, 8]⟩ := by
  have h3 : MAX_RETRIES = 2 + 1 := rfl
  rcases h0 : post_graphql env n with e0 | d0 <;>
    rcases h1 : post_graphql env (n + 1) with e1 | d1 <;>
    rcases h2 : post_graphql env (n + 2) with e2 | d2 <;>
    simp [post_graphql_with_retry, h3, retry_from, h0, h1, h2, backoff_wait,
      INITIAL_BACKOFF]

/-- C8: the retry wrapper makes at most `MAX_RETRIES = 3` transport
calls; the backoff delays slept are an initial prefix of `[2, 4, 8]`
(starting at `INITIAL_BACKOFF = 2` and doubling per attempt, with no
jitter); and when all three attempts fail, the result re-raises the last
observed failure — never a synthesized success. -/
theorem retry_bounded_backoff_reraise (env : Env) (n : Nat) :
    MAX_RETRIES = 3 ∧ INITIAL_BACKOFF = 2 ∧
    (post_graphql_with_retry env n).calls ≤ MAX_RETRIES ∧
    (post_graphql_with_retry env n).waits =
      [2, 4, 8].take ((post_graphql_with_retry env n).waits.length) ∧
    (∀ a, backoff_wait (a + 1) = 2 * backoff_wait a) ∧
    (∀ e2, (∃ e0, post_graphql env n = .error e0) →
      (∃ e1, post_graphql env (n + 1) = .error e1) →
      post_graphql env (n + 2) = .error e2 →
      (post_graphql_with_retry env n).result = .error e2) := by
  refine ⟨rfl, rfl, ?_, ?_, ?_, ?_⟩
  · rw [pgwr_eq]
    rcases post_graphql env n with e0 | d0 <;>
      rcases post_graphql env (n + 1) with e1 | d1 <;>
      rcases post_graphql env (n + 2) with e2 | d2 <;> simp [MAX_RETRIES]
  · rw [pgwr_eq]
    rcases post_graphql env n with e0 | d0 <;>
      rcases post_graphql env (n + 1) with e1 | d1 <;>
      rcases post_graphql env (n + 2) with e2 | d2 <;> rfl
  · intro a
    simp [backoff_wait, Nat.pow_succ]
    ring
  · rintro e2 ⟨e0, h0⟩ ⟨e1, h1⟩ h2
    rw [pgwr_eq, h0, h1, h2]

/-- C8 witness: a permanently failing endpoint with distinguishable
errors per call: 3 calls, delays 2, 4, 8, and the third call's error is
re-raised. -/
theorem retry_bounded_backoff_reraise_witness :
    (post_graphql_with_retry (fun k => .error (toString k)) 0).calls = 3 ∧
    (post_graphql_with_retry (fun k => .error (toString k)) 0).waits = [2, 4, 8] ∧
    (post_graphql_with_retry (fun k => .error (toString k)) 0).result = .error "2" := by
  have h := retry_bounded_backoff_reraise (fun k => .error (toString k)) 0
  refine ⟨?_, ?_, ?_⟩
  · rfl
  · rfl
  · exact h.2.2.2.2.2 "2" ⟨"0", rfl⟩ ⟨"1", rfl⟩ rfl

/-! ## C4 and C3: pagination -/

theorem post_graphql_of_body (env : Env) (n : Nat) (p : Page)
    (h : env n = .ok (page_body p)) :
    post_graphql env n = .ok (page_body p) := by
  simp [post_graphql, h, py_in, page_body, alist_get]

theorem page_parts_body (p : Page) :
    page_parts (page_body p) = .ok (p.items, p.hasNext, Json.str p.endCursor) := by
  rcases p with ⟨items, hasNext, endCursor⟩
  rcases items with _ | ⟨i, irest⟩ <;>
    simp [page_parts, page_body, py_index, py_get, py_getD, alist_get, py_or, py_iter,
      truthy, except_bind_ok]

/-- One unfolding of the pagination loop. -/
theorem fetch_pages_succ (env : Env) (fuel : Nat) (acc : List Json) (cursor : Json)
    (n : Nat) :
    fetch_pages env (fuel + 1) acc cursor n =
      (let r := post_graphql_with_retry env n
       let n1 := n + r.calls
       match r.result with
       | .error _ =>
           some (.ok (if acc.isEmpty then none else some acc), [(cursor, r.calls)], n1)
       | .ok data =>
           match page_parts data with
           | .error e => some (.error e, [(cursor, r.calls)], n1)
           | .ok (items, hasNext, endCursor) =>
               let acc1 := acc ++ items
               if hasNext then
                 match fetch_pages env fuel acc1 endCursor n1 with
                 | none => none
                 | some (res, tr, nf) => some (res, (cursor, r.calls) :: tr, nf)
               else some (.ok (some acc1), [(cursor, r.calls)], n1)) := rfl

/-- One step of the pagination loop against a well-formed page served in
one transport call. -/
theorem fetch_pages_step_ok (env : Env) (fuel : Nat) (acc : List Json) (cursor : Json)
    (n : Nat) (p : Page) (h : env n = .ok (page_body p)) :
    fetch_pages env (fuel + 1) acc cursor n =
      (if p.hasNext then
         match fetch_pages env fuel (acc ++ p.items) (Json.str p.endCursor) (n + 1) with
         | none => none
         | some (res, tr, nf) => some (res, (cursor, 1) :: tr, nf)
       else some (.ok (some (acc ++ p.items)), [(cursor, 1)], n + 1)) := by
  have hpg := post_graphql_of_body env n p h
  rw [fetch_pages_succ]
  simp only [pgwr_eq, hpg, page_parts_body]

/-- C4: for every finite sequence of pages each declaring a continuation
(`hasNextPage`) except the last, the paginator returns the concatenation
of all pages' item lists in original order, issues exactly one transport
call per page with the cursor advanced to each response's continuation
token (the per-page trace), and stops exactly at the page with no
continuation flag. -/
theorem fetch_pages_concatenates (ps1 : List Page) (plast : Page) (env : Env) (n : Nat)
    (acc : List Json) (cursor : Json)
    (henv : ∀ i (h : i < ps1.length), env (n + i) = .ok (page_body (ps1.get ⟨i, h⟩)))
    (hnext : ∀ p ∈ ps1, p.hasNext = true)
    (hlast : env (n + ps1.length) = .ok (page_body plast))
    (hstop : plast.hasNext = false) :
    fetch_pages env (ps1.length + 1) acc cursor n =
      some (.ok (some (acc ++ (ps1.map Page.items).flatten ++ plast.items)),
        (cursor :: ps1.map (fun p => Json.str p.endCursor)).map (fun c => (c, 1)),
        n + ps1.length + 1) := by
  induction ps1 generalizing n acc cursor with
  | nil =>
      have h0 : env n = .ok (page_body plast) := by simpa using hlast
      rw [show ([] : List Page).length + 1 = 0 + 1 from rfl,
        fetch_pages_step_ok env 0 acc cursor n plast h0, hstop]
      simp
  | cons p rest ih =>
      have hp : env n = .ok (page_body p) := by simpa using henv 0 (by simp)
      have hpnext : p.hasNext = true := hnext p (by simp)
      have henv2 : ∀ i (h : i < rest.length),
          env (n + 1 + i) = .ok (page_body (rest.get ⟨i, h⟩)) := by
        intro i h
        have h2 := henv (i + 1) (by simpa using Nat.succ_lt_succ h)
        have h3 : n + (i + 1) = n + 1 + i := by omega
        rw [h3] at h2
        simpa using h2
      have hnext2 : ∀ q ∈ rest, q.hasNext = true := fun q hq => hnext q (by simp [hq])
      have hlast2 : env (n + 1 + rest.length) = .ok (page_body plast) := by
        have h3 : n + 1 + rest.length = n + (p :: rest).length := by
          simp [List.length_cons]
          omega
        rw [h3]
        exact hlast
      have IH := ih (n + 1) (acc ++ p.items) (Json.str p.endCursor) henv2 hnext2 hlast2
      rw [show (p :: rest).length + 1 = (rest.length + 1) + 1 by simp,
        fetch_pages_step_ok env (rest.length + 1) acc cursor n p hp, hpnext]
      simp only [if_true, IH]
      simp [List.append_assoc, List.length_cons]
      omega

/-- C4 witness: three pages of 3, 2 and 1 items. -/
theorem fetch_pages_concatenates_witness :
    fetch_pages
      (fun k => match k with
        | 0 => .ok (page_body ⟨[Json.num 1, Json.num 2, Json.num 3], true, "c1"⟩)
        | 1 => .ok (page_body ⟨[Json.num 4, Json.num 5], true, "c2"⟩)
        | 2 => .ok (page_body ⟨[Json.num 6], false, "end"⟩)
        | _ => .error "out of pages")
      3 [] (Json.str "") 0 =
      some (.ok (some [Json.num 1, Json.num 2, Json.num 3, Json.num 4, Json.num 5,
              Json.num 6]),
        [(Json.str "", 1), (Json.str "c1", 1), (Json.str "c2", 1)], 3) := by
  have h := fetch_pages_concatenates
    [⟨[Json.num 1, Json.num 2, Json.num 3], true, "c1"⟩,
     ⟨[Json.num 4, Json.num 5], true, "c2"⟩]
    ⟨[Json.num 6], false, "end"⟩
    (fun k => match k with
      | 0 => .ok (page_body ⟨[Json.num 1, Json.num 2, Json.num 3], true, "c1"⟩)
      | 1 => .ok (page_body ⟨[Json.num 4, Json.num 5], true, "c2"⟩)
      | 2 => .ok (page_body ⟨[Json.num 6], false, "end"⟩)
      | _ => .error "out of pages")
    0 [] (Json.str "")
    (by intro i hi
        simp only [List.length_cons, List.length_nil] at hi
        interval_cases i <;> rfl)
    (by decide) rfl rfl
  simpa using h

/-- C3: when a page request fails even after retry exhaustion (three
consecutive transport-call failures), the paginator returns the items
accumulated so far as a partial result when any exist, and a `None`
result when none were accumulated — in which case `main`'s dispatch
falls back to the static flat-file source. -/
theorem fetch_pages_failure_partial (env : Env) (n fuel : Nat) (acc : List Json)
    (cursor : Json)
    (h0 : ∃ e, post_graphql env n = .error e)
    (h1 : ∃ e, post_graphql env (n + 1) = .error e)
    (h2 : ∃ e, post_graphql env (n + 2) = .error e) :
    fetch_pages env (fuel + 1) acc cursor n =
      some (.ok (if acc.isEmpty then none else some acc), [(cursor, 3)], n + 3) ∧
    (acc ≠ [] →
      fetch_pages env (fuel + 1) acc cursor n =
        some (.ok (some acc), [(cursor, 3)], n + 3)) ∧
    (acc = [] → ∀ static,
      choose_source (fetch_result (fetch_pages env (fuel + 1) acc cursor n)) static =
        static) := by
  obtain ⟨e0, h0⟩ := h0
  obtain ⟨e1, h1⟩ := h1
  obtain ⟨e2, h2⟩ := h2
  have hr : post_graphql_with_retry env n = ⟨.error e2, 3, [2, 4, 8]⟩ := by
    rw [pgwr_eq, h0, h1, h2]
  have hmain : fetch_pages env (fuel + 1) acc cursor n =
      some (.ok (if acc.isEmpty then none else some acc), [(cursor, 3)], n + 3) := by
    rw [fetch_pages_succ, hr]
  refine ⟨hmain, fun hne => ?_, fun hemp static => ?_⟩
  · rw [hmain]
    have hie : acc.isEmpty = false := by
      rcases acc with _ | ⟨a, r⟩
      · exact absurd rfl hne
      · rfl
    rw [hie]
    rfl
  · subst hemp
    rw [hmain]
    rfl

/-- C3 witness: two successful pages of 3 and 2 items followed by a page
failing on all three retry attempts yield the 5 accumulated items
(partial, not failed); and with zero accumulated items the `None` result
makes the caller use the static fallback. -/
theorem fetch_pages_failure_partial_witness :
    fetch_pages
      (fun k => match k with
        | 0 => .ok (page_body ⟨[Json.num 1, Json.num 2, Json.num 3], true, "c1"⟩)
        | 1 => .ok (page_body ⟨[Json.num 4, Json.num 5], true, "c2"⟩)
        | _ => .error "remote down")
      3 [] (Json.str "") 0 =
      some (.ok (some [Json.num 1, Json.num 2, Json.num 3, Json.num 4, Json.num 5]),
        [(Json.str "", 1), (Json.str "c1", 1), (Json.str "c2", 3)], 5) ∧
    choose_source
      (fetch_result (fetch_pages (fun _ => .error "remote down") 1 [] (Json.str "") 0))
      [Json.str "static"] = [Json.str "static"] := by
  constructor
  · rfl
  · have h := fetch_pages_failure_partial (fun _ => .error "remote down") 0 0 []
      (Json.str "") ⟨"remote down", rfl⟩ ⟨"remote down", rfl⟩ ⟨"remote down", rfl⟩
    exact h.2.2 rfl [Json.str "static"]

/-! ## C5 and C9: shape selection -/

theorem except_bind_err {α β : Type} (e : String) (f : α → Except String β) :
    (Except.error e >>= f : Except String β) = .error e := rfl

theorem post_graphql_congr (env env2 : Env) (n : Nat) (h : env2 n = env n) :
    post_graphql env2 n = post_graphql env n := by
  simp [post_graphql, h]

theorem probe_one_congr (env env2 : Env) (n : Nat) (h : env2 n = env n) :
    probe_one env2 n = probe_one env n := by
  simp [probe_one, post_graphql_congr env env2 n h]

theorem probe_one_err_of_post (env : Env) (n : Nat)
    (h : ∃ e, post_graphql env n = .error e) : ∃ e, probe_one env n = .error e := by
  obtain ⟨e, he⟩ := h
  exact ⟨e, by simp [probe_one, he, except_bind_err]⟩

theorem try_introspected_err (env : Env) (n : Nat)
    (h : ∃ e, post_graphql env n = .error e) :
    try_introspected_query env n = (none, n + 1) := by
  obtain ⟨e, he⟩ := h
  simp [try_introspected_query, he]

theorem probe_from_err (env : Env) (n : Nat) (idx : Nat) (rest : List Nat)
    (h : ∃ e, probe_one env n = .error e) :
    probe_from env n (idx :: rest) = probe_from env (n + 1) rest := by
  obtain ⟨e, he⟩ := h
  simp [probe_from, he]

theorem probe_from_ok (env : Env) (n : Nat) (idx : Nat) (rest : List Nat)
    (h : probe_one env n = .ok ()) :
    probe_from env n (idx :: rest) = (some idx, n + 1) := by
  simp [probe_from, h]

/-- C5: when introspection errors, template 0's probe is rejected and
template 1's probe is accepted, the selector chooses template 1 after
exactly 3 transport calls (introspection, probe 0, probe 1); the choice
depends only on those three calls, so template 2 is never probed; and
when introspection and every template probe are rejected,
`fetch_all_graphql` returns the `None` flat-file-fallback signal rather
than raising. -/
theorem shape_selector_strict_order (env : Env)
    (h0 : ∃ e, post_graphql env 0 = .error e)
    (h1 : ∃ e, probe_one env 1 = .error e)
    (h2 : probe_one env 2 = .ok ()) :
    select_shape env 0 = (some (Shape.template 1), 3) ∧
    (∀ env2 : Env, env2 0 = env 0 → env2 1 = env 1 → env2 2 = env 2 →
       select_shape env2 0 = (some (Shape.template 1), 3)) ∧
    (∀ envAll : Env, (∀ k, k < 4 → ∃ e, post_graphql envAll k = .error e) →
       ∀ fuel, fetch_all_graphql envAll fuel = some ⟨.ok none, none, [], 4⟩) := by
  have hA : ∀ env3 : Env, (∃ e, post_graphql env3 0 = .error e) →
      (∃ e, probe_one env3 1 = .error e) → probe_one env3 2 = .ok () →
      select_shape env3 0 = (some (Shape.template 1), 3) := by
    intro env3 g0 g1 g2
    have e1 := try_introspected_err env3 0 g0
    have e2 : probe_working_template env3 1 = (some 1, 3) := by
      have r3 : List.range NUM_QUERY_TEMPLATES = [0, 1, 2] := rfl
      rw [probe_working_template, r3, probe_from_err env3 1 0 [1, 2] g1,
        probe_from_ok env3 2 1 [2] g2]
    simp [select_shape, e1, e2, truthy_str_opt]
  refine ⟨hA env h0 h1 h2, ?_, ?_⟩
  · intro env2 a0 a1 a2
    refine hA env2 ?_ ?_ ?_
    · obtain ⟨e, he⟩ := h0
      exact ⟨e, by rw [post_graphql_congr env env2 0 a0]; exact he⟩
    · obtain ⟨e, he⟩ := h1
      exact ⟨e, by rw [probe_one_congr env env2 1 a1]; exact he⟩
    · rw [probe_one_congr env env2 2 a2]
      exact h2
  · intro envAll hAll fuel
    have g1 := probe_one_err_of_post envAll 1 (hAll 1 (by omega))
    have g2 := probe_one_err_of_post envAll 2 (hAll 2 (by omega))
    have g3 := probe_one_err_of_post envAll 3 (hAll 3 (by omega))
    have e1 := try_introspected_err envAll 0 (hAll 0 (by omega))
    have e2 : probe_working_template envAll 1 = (none, 4) := by
      have r3 : List.range NUM_QUERY_TEMPLATES = [0, 1, 2] := rfl
      rw [probe_working_template, r3, probe_from_err envAll 1 0 [1, 2] g1,
        probe_from_err envAll 2 1 [2] g2, probe_from_err envAll 3 2 [] g3]
      rfl
    have e3 : select_shape envAll 0 = (none, 4) := by
      simp [select_shape, e1, e2, truthy_str_opt]
    simp [fetch_all_graphql, e3]

/-- C5 witness: introspection down, template 0 rejected by an
application-level GraphQL error, template 1 accepted; and an
all-rejecting endpoint yields the flat-file signal after 4 calls. -/
theorem shape_selector_strict_order_witness :
    select_shape
      (fun k => match k with
        | 0 => .error "introspection down"
        | 1 => .ok (Json.obj [("errors", Json.arr [Json.str "bad field"])])
        | 2 => .ok (page_body ⟨[], false, ""⟩)
        | _ => .error "should not be called")
      0 = (some (Shape.template 1), 3) ∧
    fetch_all_graphql (fun _ => .error "down") 1 = some ⟨.ok none, none, [], 4⟩ := by
  have h := shape_selector_strict_order
    (fun k => match k with
      | 0 => .error "introspection down"
      | 1 => .ok (Json.obj [("errors", Json.arr [Json.str "bad field"])])
      | 2 => .ok (page_body ⟨[], false, ""⟩)
      | _ => .error "should not be called")
    ⟨"introspection down", rfl⟩ ⟨"GraphQL errors", rfl⟩ rfl
  exact ⟨h.1, h.2.2 (fun _ => .error "down") (fun k hk => ⟨"down", rfl⟩) 1⟩

/-- C9 counterexample: in the pagination phase, an application-level
GraphQL error response (the remote rejecting the query — a
shape-rejected error) IS retried: with introspection down, template 0
probe-accepted, and the first page request answered three times with an
`errors` body, the page trace records 3 transport calls for the single
page request (cursor `""`), i.e. the same shape and cursor were re-sent
twice after the first rejection. -/
theorem pagination_retries_graphql_error_counterexample :
    fetch_all_graphql
      (fun k => match k with
        | 0 => .error "introspection down"
        | 1 => .ok (page_body ⟨[], false, ""⟩)
        | 2 => .ok (Json.obj [("errors", Json.arr [Json.str "shape rejected"])])
        | 3 => .ok (Json.obj [("errors", Json.arr [Json.str "shape rejected"])])
        | 4 => .ok (Json.obj [("errors", Json.arr [Json.str "shape rejected"])])
        | _ => .error "beyond")
      1 = some ⟨.ok none, some (Shape.template 0), [(Json.str "", 3)], 5⟩ ∧
    post_graphql
      (fun k => match k with
        | 0 => .error "introspection down"
        | 1 => .ok (page_body ⟨[], false, ""⟩)
        | 2 => .ok (Json.obj [("errors", Json.arr [Json.str "shape rejected"])])
        | 3 => .ok (Json.obj [("errors", Json.arr [Json.str "shape rejected"])])
        | 4 => .ok (Json.obj [("errors", Json.arr [Json.str "shape rejected"])])
        | _ => .error "beyond")
      2 = .error "GraphQL errors" := by
  exact ⟨rfl, rfl⟩

/-- C9 amended: during shape selection, a rejected shape is never
retried — a failing probe (including one failing with an
application-level GraphQL error) consumes exactly one transport call and
the selector moves on to the next candidate, and a failing introspection
consumes exactly one transport call before the template probing starts.
During pagination, by contrast, responses are fetched through the retry
wrapper, which retries any failure — including application-level GraphQL
error responses (see the counterexample). -/
theorem selection_no_retry_of_rejected_shape (env : Env) (n : Nat) (idx : Nat)
    (rest : List Nat)
    (hprobe : ∃ e, probe_one env n = .error e)
    (hpost : ∃ e, post_graphql env n = .error e) :
    probe_from env n (idx :: rest) = probe_from env (n + 1) rest ∧
    try_introspected_query env n = (none, n + 1) := by
  exact ⟨probe_from_err env n idx rest hprobe, try_introspected_err env n hpost⟩

/-- C9 witness: a shape-rejecting endpoint (GraphQL `errors` body): the
probe of candidate 0 consumes one call and selection moves to candidate
1; introspection likewise consumes one call. -/
theorem selection_no_retry_witness :
    probe_from (fun _ => .ok (Json.obj [("errors", Json.arr [Json.str "rejected"])])) 0
      (0 :: [1, 2]) =
      probe_from (fun _ => .ok (Json.obj [("errors", Json.arr [Json.str "rejected"])])) 1
        [1, 2] ∧
    try_introspected_query
      (fun _ => .ok (Json.obj [("errors", Json.arr [Json.str "rejected"])])) 0 =
      (none, 1) := by
  exact selection_no_retry_of_rejected_shape
    (fun _ => .ok (Json.obj [("errors", Json.arr [Json.str "rejected"])])) 0 0 [1, 2]
    ⟨"GraphQL errors", rfl⟩ ⟨"GraphQL errors", rfl⟩

/-! ## C1, C6, C10: the normalizer on well-shaped records -/

theorem scalarish_py_or (v w : Json) (hv : scalarish v = true) (hw : scalarish w = true) :
    scalarish (py_or v w) = true := by
  unfold py_or
  split_ifs <;> assumption

theorem py_interp_scalarish (v : Json) (h : scalarish v = true) :
    ∃ s, py_interp v = .ok s := by
  rcases v with _ | b | n | s | l | o
  · exact ⟨"None", rfl⟩
  · cases b
    · exact ⟨"False", rfl⟩
    · exact ⟨"True", rfl⟩
  · exact ⟨toString n, rfl⟩
  · exact ⟨s, rfl⟩
  · simp [scalarish] at h
  · simp [scalarish] at h

theorem getD_str_scalarish (kvs : List (String × Json)) (k : String)
    (h : scalarish ((alist_get kvs k).getD .null) = true) :
    scalarish ((alist_get kvs k).getD (Json.str "")) = true := by
  rcases hl : alist_get kvs k with _ | v
  · rfl
  · rw [hl] at h
    exact h

theorem build_play_url_ok (kvs : List (String × Json))
    (hc : scalarish ((alist_get kvs "cmsId").getD .null) = true)
    (hi : scalarish ((alist_get kvs "id").getD .null) = true) :
    ∃ u, build_play_url (Json.obj kvs) = .ok u := by
  have h1 : scalarish (py_or ((alist_get kvs "cmsId").getD .null)
      (py_or ((alist_get kvs "id").getD .null) (Json.str ""))) = true :=
    scalarish_py_or _ _ hc (scalarish_py_or _ _ hi rfl)
  obtain ⟨s, hs⟩ := py_interp_scalarish _ h1
  exact ⟨PLAY_URL_PREFIX ++ s, by simp [build_play_url, py_get, except_bind_ok, hs]⟩

theorem pick_image_obj_ok (ikvs : List (String × Json)) :
    ∃ r, pick_image (Json.obj ikvs) = .ok r := by
  rcases hI : (alist_get ikvs "images").getD .null with _ | b | n | s | l | kv2 <;>
    simp only [pick_image, hI]
  case obj =>
    rcases hs : scan_keys kv2 IMAGE_PRIORITY_KEYS with _ | v <;> simp [hs]
  all_goals exact ⟨_, rfl⟩

theorem format_content_rating_ok (ikvs : List (String × Json))
    (h : (match (alist_get ikvs "contentRatings").getD .null with
          | .arr l => l.all cr_entry_wf
          | _ => true) = true) :
    ∃ r, format_content_rating (Json.obj ikvs) = .ok r := by
  rcases hC : (alist_get ikvs "contentRatings").getD .null with _ | b | n | s | l | o <;>
    rw [hC] at h <;> simp only [format_content_rating, hC]
  case arr =>
    rcases hl : l with _ | ⟨c, cs⟩
    · exact ⟨none, by simp⟩
    · rw [hl] at h
      have hwf : ∀ cr ∈ (c :: cs), cr_entry_wf cr = true :=
        fun cr hcr => List.all_eq_true.mp (by simpa using h) cr hcr
      simp only [List.isEmpty_cons, Bool.false_eq_true, if_false,
        cr_fold_wf (c :: cs) ⟨none, none, none⟩ hwf, except_bind_ok]
      exact ⟨_, rfl⟩
  all_goals exact ⟨none, rfl⟩

theorem py_upper_or_ok (v : Json) (h : falsy_or_str v = true) :
    ∃ s, py_upper (py_or v (.str "")) = .ok s := by
  rcases v with _ | b | n | s | l | o <;>
    simp_all [falsy_or_str, truthy, py_or, py_upper] <;> split_ifs <;> simp

theorem interp_truthy_or_ok (v : Json) (hv : falsy_or_scalarish v = true)
    (ht : truthy (py_or v (.str "")) = true) :
    ∃ s, py_interp (py_or v (.str "")) = .ok s := by
  unfold py_or at ht ⊢
  split_ifs at ht ⊢ with htr
  · have hsc : scalarish v = true := by
      simp [falsy_or_scalarish, htr] at hv
      exact hv
    exact py_interp_scalarish v hsc
  · simp [truthy] at ht

theorem store_ids_fold_ok (l : List Json) (h : ∀ sid ∈ l, storeid_wf sid = true) :
    ∀ acc, ∃ r, store_ids_fold acc l = .ok r := by
  induction l with
  | nil => exact fun acc => ⟨acc, rfl⟩
  | cons sid rest ih =>
      intro acc
      have hs := h sid (by simp)
      have hr : ∀ s2 ∈ rest, storeid_wf s2 = true := fun s2 h2 => h s2 (by simp [h2])
      rcases sid with _ | _ | _ | _ | _ | skvs
      case obj =>
        simp only [storeid_wf, Bool.and_eq_true] at hs
        obtain ⟨hst, hid⟩ := hs
        obtain ⟨store, hstore⟩ := py_upper_or_ok _ hst
        cases hb1 : ((store == "STEAM") &&
            truthy (py_or ((alist_get skvs "id").getD .null) (.str ""))) with
        | true =>
            have hb1x := hb1
            rw [Bool.and_eq_true] at hb1x
            have htr : truthy (py_or ((alist_get skvs "id").getD .null) (.str "")) = true :=
              hb1x.2
            obtain ⟨sv, hsv⟩ := interp_truthy_or_ok _ hid htr
            obtain ⟨r2, hr2⟩ := ih hr
              (acc ++ [Json.str ("https://store.steampowered.com/app/" ++ sv)])
            refine ⟨r2, ?_⟩
            simp only [store_ids_fold, py_get, except_bind_ok, hstore]
            rw [if_pos hb1]
            simp [hsv, except_bind_ok, hr2]
        | false =>
            cases hb2 : ((store == "EPIC") &&
                truthy (py_or ((alist_get skvs "id").getD .null) (.str ""))) with
            | true =>
                have hb2x := hb2
                rw [Bool.and_eq_true] at hb2x
                have htr : truthy (py_or ((alist_get skvs "id").getD .null)
                    (.str "")) = true := hb2x.2
                obtain ⟨sv, hsv⟩ := interp_truthy_or_ok _ hid htr
                obtain ⟨r2, hr2⟩ := ih hr
                  (acc ++ [Json.str ("https://store.epicgames.com/p/" ++ sv)])
                refine ⟨r2, ?_⟩
                simp only [store_ids_fold, py_get, except_bind_ok, hstore]
                rw [if_neg (by simp [hb1]), if_pos hb2]
                simp [hsv, except_bind_ok, hr2]
            | false =>
                obtain ⟨r2, hr2⟩ := ih hr acc
                refine ⟨r2, ?_⟩
                simp only [store_ids_fold, py_get, except_bind_ok, hstore]
                rw [if_neg (by simp [hb1]), if_neg (by simp [hb2])]
                exact hr2
      all_goals simp [storeid_wf] at hs

theorem bool_skip_eq_not_included (t a : Bool) : (t && !a) = !(!t || a) := by
  cases t <;> cases a <;> rfl

theorem variant_edition_spec (td : Json) (v : Json) (htd : scalarish td = true)
    (hv : variant_wf v = true) :
    ∃ r, variant_edition td v = .ok r ∧ r.isSome = variant_included v := by
  rcases v with _ | _ | _ | _ | _ | vkvs
  case obj =>
    simp only [variant_wf, Bool.and_eq_true] at hv
    obtain ⟨⟨hg, has⟩, hti⟩ := hv
    have hstatus : ∃ st,
        py_get (py_or ((alist_get vkvs "gfn").getD .null) (.obj [])) "status" = .ok st ∧
        st = (match (alist_get vkvs "gfn").getD .null with
              | .obj g => (alist_get g "status").getD .null
              | _ => Json.null) := by
      rcases hG : (alist_get vkvs "gfn").getD .null with _ | b | n | s | l | g <;>
        rw [hG] at hg
      case null => exact ⟨Json.null, rfl, rfl⟩
      case bool =>
          cases b
          · exact ⟨Json.null, rfl, rfl⟩
          · simp [truthy] at hg
      case num =>
          have hn : n = 0 := by simpa [truthy] using hg
          subst hn
          exact ⟨Json.null, rfl, rfl⟩
      case str =>
          have hs : s = "" := by simpa [truthy] using hg
          subst hs
          exact ⟨Json.null, rfl, rfl⟩
      case arr =>
          have hl : l = [] := by simpa [truthy] using hg
          subst hl
          exact ⟨Json.null, rfl, rfl⟩
      case obj =>
          rcases g with _ | ⟨p, ps⟩
          · exact ⟨Json.null, rfl, rfl⟩
          · exact ⟨_, rfl, rfl⟩
    obtain ⟨st, hst, hstv⟩ := hstatus
    have hinc : variant_included (Json.obj vkvs) =
        (!truthy st || (jeq st (.str "AVAILABLE") || jeq st (.str "MAINTENANCE"))) := by
      rw [variant_included, hstv]
    have hcond : (truthy st &&
        !(jeq st (.str "AVAILABLE") || jeq st (.str "MAINTENANCE"))) =
        !variant_included (Json.obj vkvs) := by
      rw [hinc, bool_skip_eq_not_included]
    have hg1 : py_get (Json.obj vkvs) "gfn" =
        .ok ((alist_get vkvs "gfn").getD .null) := rfl
    have hg2 : py_get (Json.obj vkvs) "appStore" =
        .ok ((alist_get vkvs "appStore").getD .null) := rfl
    have hg3 : py_get (Json.obj vkvs) "title" =
        .ok ((alist_get vkvs "title").getD .null) := rfl
    cases hvi : variant_included (Json.obj vkvs) with
    | false =>
        refine ⟨none, ?_, by simp⟩
        simp only [variant_edition, hg1, except_bind_ok, hst]
        rw [if_pos (by rw [hcond, hvi]; rfl)]
        rfl
    | true =>
        have hvt : scalarish (py_or ((alist_get vkvs "title").getD .null) td) = true := by
          unfold py_or
          split_ifs with h2
          · simp [falsy_or_scalarish, h2] at hti
            exact hti
          · exact htd
        obtain ⟨ts, hts⟩ := py_interp_scalarish _ hvt
        cases hvs : truthy (py_or ((alist_get vkvs "appStore").getD .null) (.str "")) with
        | true =>
            obtain ⟨ss, hss⟩ := interp_truthy_or_ok _ has hvs
            refine ⟨some (Json.obj (alist_set
              [("@context", Json.str "http://schema.org"),
               ("@type", Json.str "VideoGame"),
               ("name", Json.str (ts ++ " (" ++ ss ++ ")")),
               ("gamePlatform", Json.arr [Json.str "PC"])]
              "applicationCategory"
              (py_or ((alist_get vkvs "appStore").getD .null) (.str "")))), ?_, by simp⟩
            simp only [variant_edition, hg1, hg2, hg3, except_bind_ok, hst]
            rw [if_neg (by rw [hcond, hvi]; simp)]
            simp [hvs, hts, hss, except_bind_ok, except_pure_eq]
        | false =>
            refine ⟨some (Json.obj
              [("@context", Json.str "http://schema.org"),
               ("@type", Json.str "VideoGame"),
               ("name", py_or ((alist_get vkvs "title").getD .null) td),
               ("gamePlatform", Json.arr [Json.str "PC"])]), ?_, by simp⟩
            simp only [variant_edition, hg1, hg2, hg3, except_bind_ok, hst]
            rw [if_neg (by rw [hcond, hvi]; simp)]
            simp [hvs, except_bind_ok, except_pure_eq]
  all_goals simp [variant_wf] at hv

theorem variants_fold_spec (td : Json) (htd : scalarish td = true) (l : List Json)
    (h : ∀ v ∈ l, variant_wf v = true) :
    ∀ acc, ∃ eds, variants_fold td acc l = .ok (acc ++ eds) ∧
      eds.length = (l.filter variant_included).length := by
  induction l with
  | nil => exact fun acc => ⟨[], by simp [variants_fold], by simp⟩
  | cons v rest ih =>
      intro acc
      obtain ⟨r, hr, hrs⟩ := variant_edition_spec td v htd (h v (by simp))
      have hrest : ∀ w ∈ rest, variant_wf w = true := fun w hw => h w (by simp [hw])
      rcases r with _ | ed
      · have hni : variant_included v = false := by simpa using hrs.symm
        obtain ⟨eds, he, hlen⟩ := ih hrest acc
        refine ⟨eds, ?_, ?_⟩
        · simp [variants_fold, hr, except_bind_ok, he]
        · simp [List.filter_cons, hni, hlen]
      · have hyi : variant_included v = true := by simpa using hrs.symm
        obtain ⟨eds, he, hlen⟩ := ih hrest (acc ++ [ed])
        refine ⟨ed :: eds, ?_, ?_⟩
        · simp [variants_fold, hr, except_bind_ok, he]
        · simp [List.filter_cons, hyi, hlen]

theorem py_iter_or_spec (v : Json) (p : Json → Bool)
    (h : (match v with | .arr l => l.all p | w => !truthy w) = true) :
    ∃ slist, py_iter (py_or v (.arr [])) = .ok slist ∧
      (∀ x ∈ slist, p x = true) ∧
      slist = arr_or_nil v := by
  rcases v with _ | b | n | s | l | o
  · exact ⟨[], rfl, by simp, rfl⟩
  · cases b
    · exact ⟨[], rfl, by simp, rfl⟩
    · simp [truthy] at h
  · have hn : n = 0 := by simpa [truthy] using h
    subst hn
    exact ⟨[], rfl, by simp, rfl⟩
  · have hs : s = "" := by simpa [truthy] using h
    subst hs
    exact ⟨[], rfl, by simp, rfl⟩
  · rcases l with _ | ⟨x, xs⟩
    · exact ⟨[], rfl, by simp, rfl⟩
    · refine ⟨x :: xs, rfl, ?_, rfl⟩
      exact fun y hy => List.all_eq_true.mp (by simpa using h) y hy
  · have ho : o = [] := by simpa [truthy] using h
    subst ho
    exact ⟨[], rfl, by simp, rfl⟩

theorem py_or_obj_spec (v : Json)
    (h : (match v with | .obj _ => true | w => !truthy w) = true) :
    ∃ cv, py_or v (.obj []) = Json.obj cv := by
  rcases v with _ | b | n | s | l | o
  · exact ⟨[], rfl⟩
  · cases b
    · exact ⟨[], rfl⟩
    · simp [truthy] at h
  · have hn : n = 0 := by simpa [truthy] using h
    subst hn
    exact ⟨[], rfl⟩
  · have hs : s = "" := by simpa [truthy] using h
    subst hs
    exact ⟨[], rfl⟩
  · have hl : l = [] := by simpa [truthy] using h
    subst hl
    exact ⟨[], rfl⟩
  · rcases o with _ | ⟨p2, ps⟩
    · exact ⟨[], rfl⟩
    · exact ⟨p2 :: ps, by simp [py_or, truthy]⟩

/-- Master lemma: on a well-shaped record the normalizer succeeds, and
the key fields of the produced entity are characterized. -/
theorem itv_success (kvs : List (String × Json)) (h : item_wf (Json.obj kvs) = true) :
    (∃ vg, item_to_videogame (Json.obj kvs) = .ok vg) ∧
    (∃ u, build_play_url (Json.obj kvs) = .ok u ∧
      vg_field (item_to_videogame (Json.obj kvs)) "url" = some (Json.str u) ∧
      (getOk (item_to_videogame (Json.obj kvs))).bind primary_urlTemplate =
        some (Json.str u)) ∧
    (∃ ids, py_interp ((alist_get kvs "id").getD (Json.str "")) = .ok ids ∧
      vg_field (item_to_videogame (Json.obj kvs)) "@id" =
        some (Json.str ("gfn-" ++ ids))) ∧
    vg_field (item_to_videogame (Json.obj kvs)) "name" =
      some ((alist_get kvs "title").getD (Json.str "")) ∧
    editions_length (item_to_videogame (Json.obj kvs)) =
      some (1 + ((variants_list kvs).filter variant_included).length) := by
  simp only [item_wf, Bool.and_eq_true] at h
  obtain ⟨⟨⟨⟨⟨⟨ht, hid⟩, hcms⟩, hcr⟩, hsid⟩, hcomp⟩, hvar⟩ := h
  obtain ⟨u, hu⟩ := build_play_url_ok kvs hcms hid
  obtain ⟨img, himg⟩ := pick_image_obj_ok kvs
  obtain ⟨crv, hcrv⟩ := format_content_rating_ok kvs hcr
  have hidv := getD_str_scalarish kvs "id" hid
  obtain ⟨ids, hids⟩ := py_interp_scalarish _ hidv
  have htv := getD_str_scalarish kvs "title" ht
  obtain ⟨ti, hti2⟩ := py_interp_scalarish _ htv
  obtain ⟨slist, hslist, hswf, hseq⟩ := py_iter_or_spec _ storeid_wf hsid
  obtain ⟨sa, hsa⟩ := store_ids_fold_ok slist hswf []
  obtain ⟨cv, hcv⟩ := py_or_obj_spec _ hcomp
  obtain ⟨vlist, hvli, hvwf, hveq⟩ := py_iter_or_spec _ variant_wf hvar
  obtain ⟨eds0, hfold, hflen⟩ := variants_fold_spec
    ((alist_get kvs "title").getD (Json.str "")) htv vlist hvwf [primary_edition ti u]
  have hgd1 : py_getD (Json.obj kvs) "id" (Json.str "") =
      .ok ((alist_get kvs "id").getD (Json.str "")) := rfl
  have hgd2 : py_getD (Json.obj kvs) "title" (Json.str "") =
      .ok ((alist_get kvs "title").getD (Json.str "")) := rfl
  have hpg : ∀ k2 : String, py_get (Json.obj kvs) k2 =
      .ok ((alist_get kvs k2).getD .null) := fun _ => rfl
  have hpgc : ∀ k2 : String, py_get (Json.obj cv) k2 =
      .ok ((alist_get cv k2).getD .null) := fun _ => rfl
  refine ⟨?_, ⟨u, hu, ?_, ?_⟩, ⟨ids, hids, ?_⟩, ?_, ?_⟩
  · exact ⟨_, by
      simp only [item_to_videogame, hu, himg, hcrv, hgd1, hids, hgd2, except_bind_ok, hpg,
        hslist, hsa, hcv, hpgc, hti2, hvli, hfold, except_pure_eq]
      rfl⟩
  · simp only [item_to_videogame, hu, himg, hcrv, hgd1, hids, hgd2, except_bind_ok, hpg,
      hslist, hsa, hcv, hpgc, hti2, hvli, hfold, except_pure_eq]
    simp [vg_field, getOk, jget, alist_get_set, alist_get_set_if, alist_get]
  · simp only [item_to_videogame, hu, himg, hcrv, hgd1, hids, hgd2, except_bind_ok, hpg,
      hslist, hsa, hcv, hpgc, hti2, hvli, hfold, except_pure_eq]
    simp [getOk, primary_urlTemplate, primary_edition, jget, alist_get_set,
      alist_get_set_if, alist_get]
  · simp only [item_to_videogame, hu, himg, hcrv, hgd1, hids, hgd2, except_bind_ok, hpg,
      hslist, hsa, hcv, hpgc, hti2, hvli, hfold, except_pure_eq]
    simp [vg_field, getOk, jget, alist_get_set, alist_get_set_if, alist_get]
  · simp only [item_to_videogame, hu, himg, hcrv, hgd1, hids, hgd2, except_bind_ok, hpg,
      hslist, hsa, hcv, hpgc, hti2, hvli, hfold, except_pure_eq]
    simp [vg_field, getOk, jget, alist_get_set, alist_get_set_if, alist_get]
  · simp only [item_to_videogame, hu, himg, hcrv, hgd1, hids, hgd2, except_bind_ok, hpg,
      hslist, hsa, hcv, hpgc, hti2, hvli, hfold, except_pure_eq]
    simp [editions_length, vg_field, getOk, jget, alist_get_set, alist_get_set_if,
      alist_get, hflen, variants_list, ← hveq, Nat.add_comm]

theorem str_append_ne (p s : String) (hp : p.length ≠ 0) : (p ++ s) ≠ "" := by
  intro hcon
  have h := congrArg String.length hcon
  rw [String.length_append] at h
  simp at h
  omega

/-- C1 counterexample: the normalizer succeeds on a record with no
title, but the resulting entity's name is the empty string — not a
non-empty name. -/
theorem normalizer_empty_name_counterexample :
    (∃ vg, item_to_videogame (Json.obj []) = .ok vg) ∧
    vg_field (item_to_videogame (Json.obj [])) "name" = some (Json.str "") ∧
    truthy (Json.str "") = false :=
  ⟨⟨_, rfl⟩, rfl, rfl⟩

/-- C1 amended: on every well-shaped source record (in particular any
record lacking optional fields) the normalizer never raises, and the
entity's `@id` is always non-empty (it carries the `gfn-` prefix); the
`name` field equals the record's title field and may be empty when the
title is absent or empty. -/
theorem normalizer_wf_success (item : Json) (h : item_wf item = true) :
    (∃ vg, item_to_videogame item = .ok vg) ∧
    (∃ ids, vg_field (item_to_videogame item) "@id" = some (Json.str ("gfn-" ++ ids)) ∧
      ("gfn-" ++ ids) ≠ "") ∧
    vg_field (item_to_videogame item) "name" =
      some ((jget item "title").getD (Json.str "")) := by
  rcases item with _ | _ | _ | _ | _ | kvs
  case obj =>
    obtain ⟨hok, _, ⟨ids, _, hidf⟩, hname, _⟩ := itv_success kvs h
    exact ⟨hok, ⟨ids, hidf, str_append_ne "gfn-" ids (by decide)⟩, hname⟩
  all_goals simp [item_wf] at h

/-- C1 witness: the end-to-end record with `title="Alpha"`, `id="123"`. -/
theorem normalizer_wf_success_witness :
    item_wf alphaItem = true ∧
    vg_field (item_to_videogame alphaItem) "@id" = some (Json.str "gfn-123") ∧
    vg_field (item_to_videogame alphaItem) "name" = some (Json.str "Alpha") := by
  have h := normalizer_wf_success alphaItem (by decide)
  exact ⟨by decide, rfl, rfl⟩

/-- C6 counterexample: a variant whose status is present but empty
(`""`) is included by the code (edition list of length 2), although the
status is neither absent nor in the allow-list. -/
theorem edition_empty_status_counterexample :
    editions_length (item_to_videogame (Json.obj
      [("variants", Json.arr [Json.obj [("gfn", Json.obj
        [("status", Json.str "")])]])])) = some 2 ∧
    alist_get [("status", Json.str "")] "status" = some (Json.str "") ∧
    jeq (Json.str "") (Json.str "AVAILABLE") = false ∧
    jeq (Json.str "") (Json.str "MAINTENANCE") = false :=
  ⟨rfl, rfl, rfl, rfl⟩

/-- C6 amended: for every well-shaped record, the edition list consists
of exactly one always-present primary streaming edition plus one entry
per variant whose status field is absent, falsy (for example an empty
string), or within the allow-list {AVAILABLE, MAINTENANCE}; in
particular a RETIRED variant is excluded and a status-less variant is
included. -/
theorem edition_list_structure (kvs : List (String × Json))
    (h : item_wf (Json.obj kvs) = true) :
    editions_length (item_to_videogame (Json.obj kvs)) =
      some (1 + ((variants_list kvs).filter variant_included).length) :=
  (itv_success kvs h).2.2.2.2

/-- C6 witness: the Alpha record with one AVAILABLE variant yields an
edition list of length 2; a RETIRED variant is excluded and a
status-less variant included. -/
theorem edition_list_structure_witness :
    editions_length (item_to_videogame alphaItem) = some 2 ∧
    variant_included (Json.obj [("gfn", Json.obj [("status", Json.str "AVAILABLE")])]) =
      true ∧
    variant_included (Json.obj [("gfn", Json.obj [("status", Json.str "RETIRED")])]) =
      false ∧
    variant_included (Json.obj []) = true := by
  have h := edition_list_structure
    [("title", Json.str "Alpha"), ("id", Json.str "123"),
     ("variants", Json.arr [Json.obj [("gfn", Json.obj
       [("status", Json.str "AVAILABLE")])]])]
    (by decide)
  have h2 : 1 + ((variants_list
      [("title", Json.str "Alpha"), ("id", Json.str "123"),
       ("variants", Json.arr [Json.obj [("gfn", Json.obj
         [("status", Json.str "AVAILABLE")])]])]).filter variant_included).length = 2 := by
    decide
  rw [h2] at h
  exact ⟨h, rfl, rfl, rfl⟩

theorem build_play_url_str (kvs : List (String × Json))
    (hc : str_or_null ((alist_get kvs "cmsId").getD .null) = true)
    (hi : str_or_null ((alist_get kvs "id").getD .null) = true) :
    build_play_url (Json.obj kvs) = .ok (PLAY_URL_PREFIX ++ claimed_game_id kvs) := by
  have h1 : py_get (Json.obj kvs) "cmsId" =
      .ok ((alist_get kvs "cmsId").getD .null) := rfl
  have h2 : py_get (Json.obj kvs) "id" = .ok ((alist_get kvs "id").getD .null) := rfl
  simp only [build_play_url, h1, h2, except_bind_ok]
  have key : py_or ((alist_get kvs "cmsId").getD .null)
      (py_or ((alist_get kvs "id").getD .null) (Json.str "")) =
      Json.str (claimed_game_id kvs) := by
    rcases hC : (alist_get kvs "cmsId").getD .null with _ | b | n | c | l | o <;>
      rcases hI : (alist_get kvs "id").getD .null with _ | b2 | n2 | i | l2 | o2 <;>
      rw [hC] at hc <;> rw [hI] at hi <;>
      simp_all [str_or_null, py_or, truthy, claimed_game_id] <;>
      split_ifs <;> simp_all
  rw [key]
  rfl

/-- C10: for every well-shaped record whose identifier fields are
strings when present, `build_play_url` returns exactly the fixed
deep-link prefix followed by `cmsId` if present and non-empty, else
`id`, else the empty string; the resulting URL is never empty; and the
same URL is stored both as the entity's `url` field and as the primary
streaming edition's PlayGameAction target `urlTemplate`. -/
theorem play_url_shape_and_usage (kvs : List (String × Json))
    (h : item_wf (Json.obj kvs) = true)
    (hc : str_or_null ((alist_get kvs "cmsId").getD .null) = true)
    (hi : str_or_null ((alist_get kvs "id").getD .null) = true) :
    build_play_url (Json.obj kvs) = .ok (PLAY_URL_PREFIX ++ claimed_game_id kvs) ∧
    (PLAY_URL_PREFIX ++ claimed_game_id kvs) ≠ "" ∧
    vg_field (item_to_videogame (Json.obj kvs)) "url" =
      some (Json.str (PLAY_URL_PREFIX ++ claimed_game_id kvs)) ∧
    (getOk (item_to_videogame (Json.obj kvs))).bind primary_urlTemplate =
      some (Json.str (PLAY_URL_PREFIX ++ claimed_game_id kvs)) := by
  obtain ⟨hok, ⟨u, hu, hurl, hupt⟩, _, _, _⟩ := itv_success kvs h
  have hb := build_play_url_str kvs hc hi
  have hue : u = PLAY_URL_PREFIX ++ claimed_game_id kvs := by
    have h3 := hu.symm.trans hb
    injection h3
  subst hue
  exact ⟨hb, str_append_ne _ _ (by decide), hurl, hupt⟩

/-- C10 witness: a record carrying both `cmsId` and `id`: the `cmsId`
wins, and the URL appears in both places. -/
theorem play_url_shape_and_usage_witness :
    build_play_url (Json.obj [("cmsId", Json.str "abc"), ("id", Json.str "xyz")]) =
      .ok (PLAY_URL_PREFIX ++ "abc") ∧
    vg_field (item_to_videogame
      (Json.obj [("cmsId", Json.str "abc"), ("id", Json.str "xyz")])) "url" =
      some (Json.str (PLAY_URL_PREFIX ++ "abc")) ∧
    (getOk (item_to_videogame
      (Json.obj [("cmsId", Json.str "abc"), ("id", Json.str "xyz")]))).bind
        primary_urlTemplate = some (Json.str (PLAY_URL_PREFIX ++ "abc")) := by
  have h := play_url_shape_and_usage
    [("cmsId", Json.str "abc"), ("id", Json.str "xyz")] (by decide) (by decide) (by decide)
  exact ⟨h.1, h.2.2.1, h.2.2.2⟩
